import Mathlib

/-!
Shallow embedding of the pane-rendering core of the `decker` terminal
multiplexer (Rust), together with theorems settling the specification
claims about it.  Rust `u8`/`u16`/`i32` values are modelled as `Nat`/`Int`
with explicit wrapping where the source can wrap; fallible Rust code
(`anyhow::Result`, `panic!`-style aborts, `unwrap` on `None`) is modelled
with the `POut` outcome type below.  Strings fed to the parser are
modelled as `List Char`, matching Rust's `str::chars` iteration.
-/

set_option maxRecDepth 4000

/-- Outcome of a Rust computation: normal result, recoverable error
(`anyhow::bail!` / `Err` propagated with `?`), or an abort
(an explicit `panic` or an `unwrap` of `None`/`Err`). -/
inductive POut (α : Type) where
  | ok (a : α)
  | err (msg : String)
  | panicked (msg : String)
  deriving DecidableEq, Repr

def POut.bind {α β : Type} : POut α → (α → POut β) → POut β
  | .ok a, f => f a
  | .err m, _ => .err m
  | .panicked m, _ => .panicked m

def POut.isPanic {α : Type} : POut α → Bool
  | .panicked _ => true
  | _ => false

def POut.map {α β : Type} (f : α → β) : POut α → POut β
  | .ok a => .ok (f a)
  | .err m => .err m
  | .panicked m => .panicked m

/-- `enum Color` from `src/decker/terminal/mod.rs`. -/
inductive Color where
  | Black | Red | Green | Yellow | Blue | Magenta | Cyan | White
  | TWOFIFTYSIX (n : Nat)
  | RGB (r g b : Nat)
  deriving DecidableEq, Repr

/-- `struct PrintStyle` from `src/decker/terminal/mod.rs`. -/
structure PrintStyle where
  foreground : Color
  background : Color
  italicized : Bool
  underline : Bool
  blink : Bool
  bold : Bool
  invert : Bool
  deriving DecidableEq, Repr

/-- `PrintStyle::default()` — white on black, all flags off. -/
def PrintStyle.default : PrintStyle :=
  { foreground := .White, background := .Black, italicized := false,
    underline := false, invert := false, blink := false, bold := false }

/-- `Color::eight_color` from `pane.rs`. -/
def Color.eightColor (base : Nat) : Color :=
  match base % 10 with
  | 0 => .Black
  | 1 => .Red
  | 2 => .Green
  | 3 => .Yellow
  | 4 => .Blue
  | 5 => .Magenta
  | 6 => .Cyan
  | _ => .White

/-- `Color::to_offset` from `pane.rs`. -/
def Color.toOffset : Color → Nat
  | .Black => 0
  | .Red => 1
  | .Green => 2
  | .Yellow => 3
  | .Blue => 4
  | .Magenta => 5
  | .Cyan => 6
  | .White => 7
  | _ => 255

/-- True for the eight base colours (everything except the extended forms). -/
def Color.isBasic : Color → Bool
  | .TWOFIFTYSIX _ => false
  | .RGB _ _ _ => false
  | _ => true

/-- `Color::extended_color` from `pane.rs`: consumes sub-parameters from the
argument list.  `args.remove(0)` on an exhausted list aborts in Rust, hence
the `panicked` outcomes; an unrecognised selector bails (`err`). -/
def Color.extendedColor : List Nat → POut (Color × List Nat)
  | [] => .panicked "remove on empty args"
  | 2 :: r :: g :: b :: rest => .ok (.RGB r g b, rest)
  | 2 :: _ => .panicked "remove on empty args"
  | 5 :: n :: rest => .ok (.TWOFIFTYSIX n, rest)
  | 5 :: _ => .panicked "remove on empty args"
  | _ :: _ => .err "is not a valid SGR extended color argument"

/-- Rust `str::parse::<u8>` on a run of digits: fails when empty or above 255. -/
def parseU8 (s : List Char) : Option Nat :=
  if s.isEmpty then none
  else if s.all (·.isDigit) then
    let v := s.foldl (fun a c => a * 10 + (c.toNat - 48)) 0
    if v ≤ 255 then some v else none
  else none

/-- Rust `str::parse::<u16>`: fails when empty, non-numeric or above 65535. -/
def parseU16 (s : List Char) : Option Nat :=
  if s.isEmpty then none
  else if s.all (·.isDigit) then
    let v := s.foldl (fun a c => a * 10 + (c.toNat - 48)) 0
    if v ≤ 65535 then some v else none
  else none

/-- Rust `str::parse::<i32>` on a digit run: fails when empty or above `i32::MAX`. -/
def parseI32 (s : List Char) : Option Nat :=
  if s.isEmpty then none
  else if s.all (·.isDigit) then
    let v := s.foldl (fun a c => a * 10 + (c.toNat - 48)) 0
    if v ≤ 2147483647 then some v else none
  else none

/-- `"a;b;c".split(';')` on the capture of `PARAM_REGEX` (digits and
semicolons only); splitting the empty string yields one empty piece. -/
def splitSemi : List Char → List (List Char)
  | [] => [[]]
  | c :: rest =>
    let r := splitSemi rest
    if c = ';' then [] :: r
    else
      match r with
      | h :: t => (c :: h) :: t
      | [] => [[c]]

/-- First capture of `PARAM_REGEX` = `\x1b\[([0-9;]*)%?m` when the pattern
matches starting at the head of `s`. -/
def paramCaptureAt : List Char → Option (List Char)
  | '\x1b' :: '[' :: rest =>
    let run := rest.takeWhile (fun c => c.isDigit || c = ';')
    match rest.dropWhile (fun c => c.isDigit || c = ';') with
    | '%' :: 'm' :: _ => some run
    | 'm' :: _ => some run
    | _ => none
  | _ => none

/-- `PARAM_REGEX.captures(s)`: search for the leftmost match of
`\x1b\[([0-9;]*)%?m` and return its capture group. -/
def paramCapture : List Char → Option (List Char)
  | [] => none
  | c :: rest =>
    match paramCaptureAt (c :: rest) with
    | some r => some r
    | none => paramCapture rest

/-- One iteration of the `while !int_parts.is_empty()` loop in
`PrintStyle::apply_vt100`: apply the leading SGR code, possibly consuming
further parameters.  The wildcard arm of the Rust `match` aborts
("Invalid or unknown SGR code").  Note the faithful transcription of the
`49` arm, which mutates `foreground` in the source. -/
def PrintStyle.applySgrCode (ps : PrintStyle) (code : Nat) (rest : List Nat) :
    POut (PrintStyle × List Nat) :=
  if code = 0 then
    .ok ({ ps with foreground := .White, background := .Black,
                   blink := false, underline := false, bold := false }, rest)
  else if code = 1 then .ok ({ ps with bold := true }, rest)
  else if code = 2 then .ok ({ ps with bold := false }, rest)
  else if code = 3 then .ok ({ ps with italicized := true }, rest)
  else if code = 4 then .ok ({ ps with underline := true }, rest)
  else if code = 5 then .ok ({ ps with blink := true }, rest)
  else if code = 7 then .ok ({ ps with invert := true }, rest)
  else if code = 22 then .ok ({ ps with bold := false }, rest)
  else if code = 23 then .ok ({ ps with italicized := false }, rest)
  else if code = 24 then .ok ({ ps with underline := false }, rest)
  else if code = 25 then .ok ({ ps with blink := false }, rest)
  else if code = 27 then .ok ({ ps with invert := false }, rest)
  else if 30 ≤ code ∧ code ≤ 37 then .ok ({ ps with foreground := .eightColor code }, rest)
  else if code = 38 then
    (Color.extendedColor rest).bind fun cr => .ok ({ ps with foreground := cr.1 }, cr.2)
  else if code = 39 then .ok ({ ps with foreground := .White }, rest)
  else if 40 ≤ code ∧ code ≤ 47 then .ok ({ ps with background := .eightColor code }, rest)
  else if code = 48 then
    (Color.extendedColor rest).bind fun cr => .ok ({ ps with background := cr.1 }, cr.2)
  else if code = 49 then .ok ({ ps with foreground := .Black }, rest)
  else if 90 ≤ code ∧ code ≤ 97 then
    .ok ({ ps with foreground := .eightColor code, bold := true }, rest)
  else if 100 ≤ code ∧ code ≤ 107 then
    .ok ({ ps with background := .eightColor code, bold := true }, rest)
  else .panicked "Invalid or unknown SGR code"

/-- The parameter-consuming loop of `apply_vt100`.  Every iteration removes
at least the leading parameter, so fuel `length + 1` never runs out. -/
def PrintStyle.applyParamsFuel : Nat → PrintStyle → List Nat → POut PrintStyle
  | 0, _, _ => .panicked "fuel exhausted"
  | _ + 1, ps, [] => .ok ps
  | fuel + 1, ps, code :: rest =>
    (ps.applySgrCode code rest).bind fun pr =>
      PrintStyle.applyParamsFuel fuel pr.1 pr.2

def PrintStyle.applyParams (ps : PrintStyle) (l : List Nat) : POut PrintStyle :=
  PrintStyle.applyParamsFuel (l.length + 1) ps l

/-- `PrintStyle::apply_vt100` from `pane.rs`: find the SGR parameter list,
parse each `u8` parameter (silently dropping pieces that do not parse), and
apply them; an empty parameter list is a full reset. -/
def PrintStyle.applyVt100 (ps : PrintStyle) (s : List Char) : POut PrintStyle :=
  match paramCapture s with
  | none => .err "does not look like an SGR sequence"
  | some capture =>
    let intParts := (splitSemi capture).filterMap parseU8
    if intParts.isEmpty then .ok PrintStyle.default
    else ps.applyParams intParts

/-! ### PrintStyle serialisation: `foreground_string`, `background_string`,
`to_str`, `diff_str` from `pane.rs`.  The emitted byte strings are modelled
both as Lean `String`s and as the ordered list of component escape
sequences (`..Parts`), whose `String.join` is the emitted string.  A
receiving terminal applies such output by applying each complete SGR
sequence in order (`applySeqs`). -/

/-- `PrintStyle::foreground_string`.  Note that the base offset depends on
the bold flag (`90` vs `30`). -/
def PrintStyle.foregroundString (ps : PrintStyle) : String :=
  let fgBase : Nat := if ps.bold then 90 else 30
  match ps.foreground with
  | .TWOFIFTYSIX n => "\x1b[38;5;" ++ toString n ++ "m"
  | .RGB r g b => "\x1b[38;2;" ++ toString r ++ ";" ++ toString g ++ ";" ++ toString b ++ "m"
  | c => "\x1b[" ++ toString (fgBase + c.toOffset) ++ "m"

/-- `PrintStyle::background_string`.  Faithful to the source, which emits
`38;5;…`/`38;2;…` (foreground selectors) for extended background colours. -/
def PrintStyle.backgroundString (ps : PrintStyle) : String :=
  let bgBase : Nat := if ps.bold then 100 else 40
  match ps.background with
  | .TWOFIFTYSIX n => "\x1b[38;5;" ++ toString n ++ "m"
  | .RGB r g b => "\x1b[38;2;" ++ toString r ++ ";" ++ toString g ++ ";" ++ toString b ++ "m"
  | c => "\x1b[" ++ toString (bgBase + c.toOffset) ++ "m"

/-- Component sequences of `PrintStyle::diff_str(self, other)`, in the
order the source appends them: fg, bg, underline, blink, italics, invert. -/
def PrintStyle.diffParts (a b : PrintStyle) : List String :=
  (if a.foreground ≠ b.foreground then [b.foregroundString] else []) ++
  (if a.background ≠ b.background then [b.backgroundString] else []) ++
  (if a.underline ≠ b.underline then [if b.underline then "\x1b[4m" else "\x1b[24m"] else []) ++
  (if a.blink ≠ b.blink then [if b.blink then "\x1b[5m" else "\x1b[25m"] else []) ++
  (if a.italicized ≠ b.italicized then [if b.italicized then "\x1b[3m" else "\x1b[23m"] else []) ++
  (if a.invert ≠ b.invert then [if b.invert then "\x1b[7m" else "\x1b[27m"] else [])

/-- `PrintStyle::diff_str`: the VT100 bytes transforming `a` into `b`. -/
def PrintStyle.diffStr (a b : PrintStyle) : String :=
  String.join (a.diffParts b)

/-- Component sequences of `PrintStyle::to_str`: fg, bg, blink, underline,
italics (bold and invert are never emitted on their own). -/
def PrintStyle.toStrParts (ps : PrintStyle) : List String :=
  [ps.foregroundString, ps.backgroundString] ++
  (if ps.blink then ["\x1b[5m"] else []) ++
  (if ps.underline then ["\x1b[4m"] else []) ++
  (if ps.italicized then ["\x1b[3m"] else [])

/-- `PrintStyle::to_str`. -/
def PrintStyle.toStr (ps : PrintStyle) : String :=
  String.join ps.toStrParts

/-- A terminal consuming a stream of complete SGR sequences: apply each in
order with `apply_vt100` semantics. -/
def applySeqs (t : PrintStyle) : List String → POut PrintStyle
  | [] => .ok t
  | s :: rest =>
    match t.applyVt100 s.data with
    | .ok t' => applySeqs t' rest
    | .err m => .err m
    | .panicked m => .panicked m

/-! ### Stream parser.

`StreamState` from `src/rex/terminal/internal/stream_state.rs` (the
snapshot whose `consume_buffer` classifies complete sequences with
`VT100::from_str`), with the `VT100`/`TerminalOutput` types and
`VT100::from_str` from `src/decker/terminal/internal/mod.rs`.

The three guarding regexes are embedded as decidable matchers:
`CSI_BEGINNING = \x1b[\[\x9b>=MD]`,
`VT100_REGEX = ESC [introducer] ([0-?]* [0x20-0x2f]* [@-~>=])`,
`VT100_SCROLL_REGEX = \x1b[MD]`
(`is_match` = a match exists anywhere in the buffer). -/

inductive VT100 where
  | ScrollDown (s : List Char)
  | ScrollUp (s : List Char)
  | SGR (s : List Char)
  | MoveCursor (s : List Char)
  | MoveCursorApp (s : List Char)
  | ClearLine (s : List Char)
  | EraseLineAfterCursor (s : List Char)
  | EraseLineBeforeCursor (s : List Char)
  | EraseScreen (s : List Char)
  | PassThrough (s : List Char)
  | HideCursor (s : List Char)
  | ShowCursor (s : List Char)
  | GetCursorPos (s : List Char)
  | EnterApplicationKeyMode (s : List Char)
  | EnterAltKeypadMode (s : List Char)
  | ExitAltKeypadMode (s : List Char)
  | Unknown (s : List Char)
  deriving DecidableEq, Repr

/-- `VT100::to_string`: the raw bytes carried by the token. -/
def VT100.raw : VT100 → List Char
  | .ScrollDown s => s
  | .ScrollUp s => s
  | .SGR s => s
  | .MoveCursor s => s
  | .MoveCursorApp s => s
  | .ClearLine s => s
  | .EraseLineAfterCursor s => s
  | .EraseLineBeforeCursor s => s
  | .EraseScreen s => s
  | .PassThrough s => s
  | .HideCursor s => s
  | .ShowCursor s => s
  | .GetCursorPos s => s
  | .EnterApplicationKeyMode s => s
  | .EnterAltKeypadMode s => s
  | .ExitAltKeypadMode s => s
  | .Unknown s => s

inductive TerminalOutput where
  | Plaintext (s : List Char)
  | CSI (v : VT100)
  deriving DecidableEq, Repr

/-- `TerminalOutput::to_string`. -/
def TerminalOutput.raw : TerminalOutput → List Char
  | .Plaintext s => s
  | .CSI v => v.raw

/-- `TerminalOutput::is_empty`. -/
def TerminalOutput.isEmptyOut : TerminalOutput → Bool
  | .Plaintext s => s.isEmpty
  | .CSI v => v.raw.isEmpty

/-- The character class `[\[\x9b>=MD]` of `CSI_BEGINNING`. -/
def isCsiIntro (c : Char) : Bool :=
  c = '[' || c = '\x9b' || c = '>' || c = '=' || c = 'M' || c = 'D'

/-- `CSI_BEGINNING.is_match`: an `ESC` followed by an introducer occurs
somewhere in the buffer. -/
def csiBeginningMatch : List Char → Bool
  | [] => false
  | [_] => false
  | a :: b :: rest => (a = '\x1b' && isCsiIntro b) || csiBeginningMatch (b :: rest)

/-- Parameter bytes `[0-?]` = `0x30`–`0x3f`. -/
def isParamByte (c : Char) : Bool := 0x30 ≤ c.toNat && c.toNat ≤ 0x3f

/-- Intermediate bytes of the regex, the range `0x20`–`0x2f`. -/
def isIntermediateByte (c : Char) : Bool := 0x20 ≤ c.toNat && c.toNat ≤ 0x2f

/-- Final bytes `[@-~>=]` = `0x40`–`0x7e` plus `>` and `=`. -/
def isFinalByte (c : Char) : Bool :=
  (0x40 ≤ c.toNat && c.toNat ≤ 0x7e) || c = '>' || c = '='

/-- Scan for `[0-?]* [0x20-0x2f]* [@-~>=]` (a match exists iff this scan accepts):
a final byte ends the match, parameter bytes may precede intermediate
bytes but not follow them. -/
def vt100TailScan : Bool → List Char → Bool
  | _, [] => false
  | inParams, c :: rest =>
    if isFinalByte c then true
    else if isParamByte c then inParams && vt100TailScan true rest
    else if isIntermediateByte c then vt100TailScan false rest
    else false

/-- A match of `VT100_REGEX` starting at the head of the buffer. -/
def vt100MatchAt : List Char → Bool
  | '\x1b' :: c :: rest => isCsiIntro c && vt100TailScan true rest
  | _ => false

/-- `VT100_REGEX.is_match`: a match starting anywhere. -/
def vt100Match : List Char → Bool
  | [] => false
  | c :: rest => vt100MatchAt (c :: rest) || vt100Match rest

/-- `VT100_SCROLL_REGEX.is_match`: `ESC M` or `ESC D` occurs. -/
def vt100ScrollMatch : List Char → Bool
  | [] => false
  | [_] => false
  | a :: b :: rest => (a = '\x1b' && (b = 'M' || b = 'D')) || vt100ScrollMatch (b :: rest)

/-- The `'D'` arm of `VT100::from_str`: a bare `ESC D` is a scroll, a CSI
ending in `D` is a left movement. -/
def vt100FromStrD (s : List Char) : VT100 :=
  if s = ['\x1b', 'D'] then .ScrollUp s else .MoveCursor s

/-- Rust `String::len` counts UTF-8 bytes; the parser's two-character test
`self.buffer.len() == 2` and `from_str`'s slicing are byte-based. -/
def utf8Len (c : Char) : Nat :=
  if c.toNat < 0x80 then 1
  else if c.toNat < 0x800 then 2
  else if c.toNat < 0x10000 then 3
  else 4

def byteLen (s : List Char) : Nat := (s.map utf8Len).sum

/-- Rust `str::is_char_boundary`: byte index `i` is 0 or the start of a
character (the end of the string counts). -/
def isCharBoundary : List Char → Nat → Bool
  | _, 0 => true
  | [], _ => false
  | c :: rest, i => if utf8Len c ≤ i then isCharBoundary rest (i - utf8Len c) else false

/-- Drop the characters covering the first `i` bytes (callers establish
that `i` is a char boundary). -/
def byteDrop : List Char → Nat → List Char
  | s, 0 => s
  | [], _ => []
  | c :: rest, i => byteDrop rest (i - utf8Len c)

/-- Take the characters covering the first `i` bytes (callers establish
that `i` is a char boundary). -/
def byteTake : List Char → Nat → List Char
  | _, 0 => []
  | [], _ => []
  | c :: rest, i => c :: byteTake rest (i - utf8Len c)

/-- Rust `str::get(a..b)`: `Some` slice when both byte indices are in
range and on character boundaries, `None` otherwise. -/
def byteSlice (s : List Char) (a b : Nat) : Option (List Char) :=
  if a ≤ b && b ≤ byteLen s && isCharBoundary s a && isCharBoundary s b then
    some (byteTake (byteDrop s a) (b - a))
  else none

/-- The cursor-movement arm of `VT100::from_str`: `ESC O`-prefixed finals
are application-mode movements.  The source reads `s.get(1..2).unwrap()`,
which aborts when byte 2 is not a character boundary — e.g. when the
introducer is the two-byte `0x9b`. -/
def vt100FromStrMove (s : List Char) : POut VT100 :=
  match byteSlice s 1 2 with
  | none => .panicked "get(1..2) unwrap"
  | some sl => .ok (if sl = ['O'] then .MoveCursorApp s else .MoveCursor s)

/-- The `'K'` arm of `VT100::from_str`. -/
def vt100FromStrK (s : List Char) : VT100 :=
  if s = "\x1b[1K".data then .EraseLineBeforeCursor s
  else if s = "\x1b[2K".data then .ClearLine s
  else .EraseLineAfterCursor s

/-- The `'h'|'l'|'n'|'r'` arm of `VT100::from_str`. -/
def vt100FromStrMode (s : List Char) : VT100 :=
  if s = "\x1b[?1h".data then .EnterApplicationKeyMode s
  else if s = "\x1b[?25l".data then .HideCursor s
  else if s = "\x1b[?25h".data then .ShowCursor s
  else if s = "\x1b[6n".data then .GetCursorPos s
  else .PassThrough s

/-- The wildcard arm of `VT100::from_str`: `ESC k …` strings are
`ClearLine`, everything else is `Unknown`.  The source indexes `s[0..2]`,
which aborts when byte 2 is not a character boundary. -/
def vt100FromStrOther (s : List Char) : POut VT100 :=
  match byteSlice s 0 2 with
  | none => .panicked "byte index not a char boundary"
  | some sl => .ok (if sl = ['\x1b', 'k'] then .ClearLine s else .Unknown s)

/-- `VT100::from_str` from `src/decker/terminal/internal/mod.rs`.  The
empty string errs; the cursor-movement and wildcard arms abort when the
byte slices they take cut a multibyte character. -/
def vt100FromStr (s : List Char) : POut VT100 :=
  match s.getLast? with
  | none => .err "Cannot parse an empty string"
  | some last =>
    if last = 'M' then .ok (.ScrollDown s)
    else if last = 'D' then .ok (vt100FromStrD s)
    else if last = 'm' then .ok (.SGR s)
    else if last = 'H' || last = 'f' || last = 'A' || last = 'B' || last = 'C' then
      vt100FromStrMove s
    else if last = 'J' then .ok (.EraseScreen s)
    else if last = 'K' then .ok (vt100FromStrK s)
    else if last = 'L' then .ok (.ClearLine s)
    else if last = 'h' || last = 'l' || last = 'n' || last = 'r' then
      .ok (vt100FromStrMode s)
    else vt100FromStrOther s

inductive VT100State where
  | PlainText
  | FoundEsc
  deriving DecidableEq, Repr

structure StreamState where
  buffer : List Char
  vettedOutput : List TerminalOutput
  buildState : VT100State
  deriving DecidableEq, Repr

def StreamState.new : StreamState :=
  { buffer := [], vettedOutput := [], buildState := .PlainText }

def StreamState.isEscSeq (ss : StreamState) : Bool :=
  csiBeginningMatch ss.buffer

def StreamState.isEscSeqComplete (ss : StreamState) : Bool :=
  ss.isEscSeq && (vt100Match ss.buffer || vt100ScrollMatch ss.buffer)

/-- `StreamState::consume_buffer`: move the pending buffer into the vetted
queue, as a classified `CSI` when it is a complete escape sequence and as
`Plaintext` otherwise.  The source unwraps `from_str`'s result, so both a
classification abort and its error case abort the parser. -/
def StreamState.consumeBuffer (ss : StreamState) : POut StreamState :=
  if ss.isEscSeqComplete then
    match vt100FromStr ss.buffer with
    | .ok v =>
      .ok { ss with vettedOutput := ss.vettedOutput ++ [.CSI v], buffer := [] }
    | .err m => .panicked m
    | .panicked m => .panicked m
  else
    .ok { ss with vettedOutput := ss.vettedOutput ++ [.Plaintext ss.buffer], buffer := [] }

/-- One character of `StreamState::push`; aborts propagate from
`consume_buffer`. -/
def StreamState.pushChar (ss : StreamState) (c : Char) : POut StreamState :=
  match ss.buildState with
  | .PlainText =>
    if c = '\x1b' then
      ss.consumeBuffer.bind fun ss =>
        .ok { ss with buffer := ss.buffer ++ [c], buildState := .FoundEsc }
    else
      .ok (match ss.vettedOutput.getLast? with
        | none =>
          { ss with vettedOutput := [.Plaintext [c]] }
        | some (.Plaintext p) =>
          { ss with vettedOutput := ss.vettedOutput.dropLast ++ [.Plaintext (p ++ [c])] }
        | some (.CSI v) =>
          { ss with vettedOutput := ss.vettedOutput.dropLast ++ [.CSI v, .Plaintext [c]] })
  | .FoundEsc =>
    let ss := { ss with buffer := ss.buffer ++ [c] }
    let notAnEscSeq := byteLen ss.buffer = 2 && !ss.isEscSeq
    if notAnEscSeq || ss.isEscSeqComplete then
      ss.consumeBuffer.bind fun ss2 => .ok { ss2 with buildState := .PlainText }
    else .ok ss

/-- `StreamState::push`: per-character processing of the chunk. -/
def StreamState.pushStr (ss : StreamState) (s : List Char) : POut StreamState :=
  s.foldl (fun acc c => acc.bind fun st => st.pushChar c) (.ok ss)

/-- `StreamState::consume`: flush a trailing bare `ESC` as plaintext, then
hand over all non-empty vetted tokens and clear the queue. -/
def StreamState.consume (ss : StreamState) : POut (List TerminalOutput × StreamState) :=
  (if ss.buffer.getLast? = some '\x1b'
   then ss.consumeBuffer.bind fun s2 => .ok { s2 with buildState := .PlainText }
   else .ok ss).bind fun ss =>
  .ok ((ss.vettedOutput.filter fun o => !o.isEmptyOut), { ss with vettedOutput := [] })

/-! ### Glyphs and lines (`src/decker/terminal/internal/glyph_string.rs`). -/

/-- `struct Glyph`. -/
structure Glyph where
  c : Char
  style : PrintStyle
  dirty : Bool
  deriving DecidableEq, Repr

/-- `Glyph::new`: freshly written glyphs are dirty. -/
def Glyph.new (c : Char) (state : PrintStyle) : Glyph :=
  { c := c, style := state, dirty := true }

/-- `Glyph::default()`: a dirty default-styled space. -/
def Glyph.defaultGlyph : Glyph := Glyph.new ' ' PrintStyle.default

/-- `struct GlyphString` (the unused `string_rep` field is omitted). -/
structure GlyphString where
  glyphs : List Glyph
  dirty : Bool
  deriving DecidableEq, Repr

def GlyphString.new : GlyphString := { glyphs := [], dirty := true }

/-- `GlyphString::last_style`. -/
def GlyphString.lastStyle (g : GlyphString) : PrintStyle :=
  match g.glyphs.getLast? with
  | none => PrintStyle.default
  | some gl => gl.style

/-- `GlyphString::dirty()`: line-level flag or any dirty glyph. -/
def GlyphString.dirtyQ (g : GlyphString) : Bool :=
  g.dirty || g.glyphs.any (·.dirty)

/-- `GlyphString::set`: pad to `index + 1` cells with spaces in the
trailing glyph's style, then overwrite cell `index` and mark the line
dirty.  `max(0, index - (len - 1))` over `i32` equals `(index+1) - len`
over truncated `Nat` subtraction. -/
def GlyphString.set (g : GlyphString) (index : Nat) (c : Char) (style : PrintStyle) :
    GlyphString :=
  let extra := (index + 1) - g.glyphs.length
  let padStyle := match g.glyphs.getLast? with
    | none => Glyph.defaultGlyph.style
    | some gl => gl.style
  let glyphs := g.glyphs ++ List.replicate extra (Glyph.new ' ' padStyle)
  { glyphs := glyphs.set index (Glyph.new c style), dirty := true }

/-- `GlyphString::push`: append the characters of `s` in `style`. -/
def GlyphString.pushStr (g : GlyphString) (s : List Char) (style : PrintStyle) : GlyphString :=
  (s.foldl (fun (acc : GlyphString × Nat) c => (acc.1.set acc.2 c style, acc.2 + 1))
    (g, g.glyphs.length)).1

/-- `GlyphString::clear_at`. -/
def GlyphString.clearAt (g : GlyphString) (idx : Nat) : GlyphString :=
  g.set idx ' ' PrintStyle.default

/-- `GlyphString::clear_to`: overwrite cells `[0, idx)` with default spaces. -/
def GlyphString.clearTo (g : GlyphString) (idx : Nat) : GlyphString :=
  (List.range idx).foldl (fun acc i => acc.set i ' ' PrintStyle.default) g

/-- `GlyphString::clear_after`: overwrite cells `[idx, len)` with default
spaces (the range bound is the length before the loop starts). -/
def GlyphString.clearAfter (g : GlyphString) (idx : Nat) : GlyphString :=
  ((List.range g.glyphs.length).drop idx).foldl (fun acc i => acc.clearAt i) g

/-- `GlyphString::clear`. -/
def GlyphString.clear (_g : GlyphString) : GlyphString :=
  { glyphs := [], dirty := true }

/-- `GlyphString::delete_to`: drop the first `min(len, idx)` glyphs. -/
def GlyphString.deleteTo (g : GlyphString) (idx : Nat) : GlyphString :=
  { glyphs := g.glyphs.drop (min g.glyphs.length idx), dirty := true }

/-- `GlyphString::plaintext`. -/
def GlyphString.plaintext (g : GlyphString) : String :=
  String.mk (g.glyphs.map (·.c))

/-- `GlyphString::str_with_width`: build the styled text of the first
`width` glyphs, emitting a style diff before any glyph whose style differs
from the running style, and clear the dirty flag of exactly those glyphs.
The running style starts at the first glyph's style. -/
def GlyphString.strWithWidth (g : GlyphString) (width : Nat) : GlyphString × String :=
  let startStyle := match g.glyphs.head? with
    | none => Glyph.defaultGlyph.style
    | some gl => gl.style
  let out := (g.glyphs.take width).foldl
    (fun (acc : PrintStyle × String) gl =>
      let diff := acc.1.diffStr gl.style
      if diff.length > 0 then (gl.style, acc.2 ++ diff ++ gl.c.toString)
      else (acc.1, acc.2 ++ gl.c.toString))
    (startStyle, "")
  ({ g with glyphs := (g.glyphs.take width).map (fun gl => { gl with dirty := false })
                        ++ g.glyphs.drop width },
   out.2)

/-- `GlyphString::write`: position the host cursor, bridge styles, emit the
width-bounded text, and pad with spaces.  The single `write!` to the host
writer is modelled by `writeOk`: when it fails the function returns the
error and the line-level dirty flag is left as it was — but the per-glyph
dirty flags were already cleared by `str_with_width` while the output was
being formatted.  Lengths are counted in characters (the source counts
bytes; they agree on ASCII output). -/
instance : DecidableEq (Except String String) := fun a b =>
  match a, b with
  | .ok x, .ok y => if h : x = y then .isTrue (by rw [h]) else .isFalse (by simp [h])
  | .error x, .error y => if h : x = y then .isTrue (by rw [h]) else .isFalse (by simp [h])
  | .ok _, .error _ => .isFalse (by simp)
  | .error _, .ok _ => .isFalse (by simp)

def GlyphString.write (g : GlyphString) (xOff yOff width : Nat) (style : PrintStyle)
    (writeOk : Bool) : GlyphString × Except String String :=
  let lineStyle := style.diffStr (match g.glyphs.head? with
    | none => Glyph.defaultGlyph.style
    | some gl => gl.style)
  let resetStyle := (match g.glyphs.getLast? with
    | none => Glyph.defaultGlyph.style
    | some gl => gl.style).diffStr style
  let setCursor := "\x1b[" ++ toString yOff ++ ";" ++ toString xOff ++ "H"
  let sw := g.strWithWidth width
  let output := setCursor ++ lineStyle ++ sw.2 ++ resetStyle
  let padWidth := if sw.1.glyphs.length < width
    then output.length + (width - sw.1.glyphs.length)
    else width
  let padded := output ++ String.mk (List.replicate (padWidth - output.length) ' ')
  if writeOk then ({ sw.1 with dirty := false }, .ok padded)
  else (sw.1, .error "write failure")

/-! ### Cursor and viewport
(`src/decker/terminal/internal/cursor.rs`, `view_port.rs`,
`src/decker/terminal/mod.rs`).  `VirtualCoord = u16`, `ScreenCoord = i32`;
coordinates stay small in all reachable states, so `Nat` suffices, with
the one `i32 as u16` cast in `cursor_goto` wrapped explicitly. -/

inductive ScrollMode where
  | Scroll
  | Fixed
  deriving DecidableEq, Repr

inductive DeletionType where
  | ClearLine
  | ClearLineToCursor
  | ClearLineAfterCursor
  | ClearScreen
  | ClearScreenToCursor
  | ClearScreenAfterCursor
  | Unknown (s : List Char)
  deriving DecidableEq, Repr

structure Cursor where
  x : Nat
  y : Nat
  xMax : Nat
  yMax : Nat
  deriving DecidableEq, Repr

/-- `Cursor::new`: note that the clamp bounds are the full width/height,
not `width - 1`/`height - 1`. -/
def Cursor.new (maxWidth maxHeight : Nat) : Cursor :=
  { x := 0, y := 0, xMax := maxWidth, yMax := maxHeight }

def Cursor.setX (c : Cursor) (n : Nat) : Cursor := { c with x := min n c.xMax }

def Cursor.setY (c : Cursor) (n : Nat) : Cursor := { c with y := min n c.yMax }

def Cursor.incrX (c : Cursor) (offset : Nat) : Cursor := c.setX (c.x + offset)

def Cursor.incrY (c : Cursor) (offset : Nat) : Cursor := c.setY (c.y + offset)

/-- `Cursor::decr_x`: guarded by `x > 0` only; the inner `u16` subtraction
is modelled as truncated subtraction (it cannot underflow in the states
the claims exercise). -/
def Cursor.decrX (c : Cursor) (offset : Nat) : Cursor :=
  if c.x > 0 then c.setX (c.x - offset) else c

def Cursor.decrY (c : Cursor) (offset : Nat) : Cursor :=
  let offset := min offset c.y
  c.setY (c.y - offset)

/-- `Cursor::col`/`row`: 1-based screen coordinates. -/
def Cursor.col (c : Cursor) : Nat := c.x + 1

def Cursor.row (c : Cursor) : Nat := c.y + 1

structure ViewPort where
  paneId : String
  visibleLines : List GlyphString
  curStyle : PrintStyle
  scrollMode : ScrollMode
  width : Nat
  height : Nat
  cursor : Cursor
  deriving DecidableEq, Repr

/-- `ViewPort::new`. -/
def ViewPort.new (paneId : String) (width height : Nat) (scrollMode : ScrollMode) : ViewPort :=
  { paneId := paneId, visibleLines := [], curStyle := PrintStyle.default,
    cursor := Cursor.new width height, scrollMode := scrollMode,
    width := width, height := height }

/-- The head of `ViewPort::cur_line`: when `cursor.y ≥ height`, pop
`cursor.y - height` leading lines (zero in every reachable state, since
`y` is clamped to `height`) and clamp `cursor.y` to `height - 1`. -/
def ViewPort.curLinePrep (vp : ViewPort) : ViewPort :=
  if vp.cursor.y ≥ vp.height then
    { vp with visibleLines := vp.visibleLines.drop (vp.cursor.y - vp.height),
              cursor := vp.cursor.setY (vp.height - 1) }
  else vp

/-- `ViewPort::mut_line`: extend `visible_lines` with fresh empty lines up
to and including `index`. -/
def ViewPort.ensureLines (vp : ViewPort) (index : Nat) : ViewPort :=
  { vp with visibleLines :=
      vp.visibleLines ++ List.replicate ((index + 1) - vp.visibleLines.length) GlyphString.new }

/-- `ViewPort::cur_line` followed by an in-place mutation `f` of the
returned line reference. -/
def ViewPort.withCurLine (vp : ViewPort) (f : GlyphString → GlyphString) : ViewPort :=
  let vp := vp.curLinePrep
  let idx := vp.cursor.y
  let vp := vp.ensureLines idx
  { vp with visibleLines :=
      vp.visibleLines.set idx (f (vp.visibleLines.getD idx GlyphString.new)) }

/-- `ViewPort::take_visible_lines`: Scroll pops from the front until the
bound holds, Fixed truncates from the back. -/
def ViewPort.takeVisibleLines (vp : ViewPort) : ViewPort :=
  match vp.scrollMode with
  | .Scroll => { vp with visibleLines := vp.visibleLines.drop (vp.visibleLines.length - vp.height) }
  | .Fixed => { vp with visibleLines := vp.visibleLines.take vp.height }

/-- `ViewPort::newline`.  `Vec::remove(0)` on an empty vector aborts in
Rust; that state is unreachable in the claims below, and is modelled by
`List.drop 1`. -/
def ViewPort.newline (vp : ViewPort) : ViewPort :=
  let vp :=
    if vp.cursor.y = vp.height then
      match vp.scrollMode with
      | .Scroll => { vp with visibleLines := vp.visibleLines.drop 1 ++ [GlyphString.new] }
      | .Fixed => vp
    else vp
  { vp with cursor := (vp.cursor.setX 0).incrY 1 }

/-- The `(col - 1) as VirtualCoord` cast: `i32` to `u16` wraps modulo 2^16. -/
def u16OfInt (n : Int) : Nat := (n.emod 65536).toNat

/-- `ViewPort::cursor_goto` (1-based `ScreenCoord` arguments). -/
def ViewPort.cursorGoto (vp : ViewPort) (row col : Int) : ViewPort :=
  { vp with cursor := ((vp.cursor.setX (u16OfInt (col - 1))).setY (u16OfInt (row - 1))) }

def ViewPort.cursorUp (vp : ViewPort) (amount : Nat) : ViewPort :=
  { vp with cursor := vp.cursor.decrY amount }

/-- `ViewPort::cursor_down`: note the source computes `final_row` from
`cursor.x()`, and drops leading lines when it crosses the bottom. -/
def ViewPort.cursorDown (vp : ViewPort) (amount : Nat) : ViewPort :=
  let finalRow := vp.cursor.x + amount
  let vp := { vp with cursor := vp.cursor.incrY amount }
  if finalRow ≥ vp.height then
    { vp with visibleLines := vp.visibleLines.drop (finalRow - vp.height) }
  else vp

def ViewPort.cursorLeft (vp : ViewPort) (amount : Nat) : ViewPort :=
  { vp with cursor := vp.cursor.decrX amount }

def ViewPort.cursorRight (vp : ViewPort) (amount : Nat) : ViewPort :=
  { vp with cursor := vp.cursor.incrX amount }

def ViewPort.cursorHome (vp : ViewPort) : ViewPort :=
  { vp with cursor := vp.cursor.setX 0 }

/-- `ViewPort::clear`: dispatch a deletion.  The slice bounds in the
`ClearScreen*` arms are modelled with `take`/`drop`. -/
def ViewPort.clear (vp : ViewPort) (d : DeletionType) : ViewPort :=
  let yIdx := vp.cursor.y
  let xIdx := vp.cursor.x
  match d with
  | .ClearLine => vp.withCurLine (·.clear)
  | .ClearLineToCursor => vp.withCurLine (·.clearTo xIdx)
  | .ClearLineAfterCursor => vp.withCurLine (·.clearAfter xIdx)
  | .ClearScreen =>
    ({ vp with visibleLines := vp.visibleLines.map GlyphString.clear }).cursorGoto 1 1
  | .ClearScreenToCursor =>
    let vp := { vp with visibleLines :=
      (vp.visibleLines.take yIdx).map GlyphString.clear ++ vp.visibleLines.drop yIdx }
    vp.withCurLine (·.clearTo xIdx)
  | .ClearScreenAfterCursor =>
    let vp :=
      if yIdx + 1 < vp.visibleLines.length then
        { vp with visibleLines :=
          vp.visibleLines.take (yIdx + 1) ++ (vp.visibleLines.drop (yIdx + 1)).map GlyphString.clear }
      else vp
    vp.withCurLine (·.clearAfter xIdx)
  | .Unknown _ => vp

/-- `ViewPort::apply_style`. -/
def ViewPort.applyStyle (vp : ViewPort) (code : List Char) : POut ViewPort :=
  (vp.curStyle.applyVt100 code).bind fun st => .ok { vp with curStyle := st }

/-! ### Pane (`src/decker/terminal/pane.rs`).

The two movement regexes are embedded for the code strings the parser can
produce (which always start `ESC [ …` and end in a non-digit final byte,
so the greedy digit runs never need to backtrack):
`HOME_REGEX = \x1b\[(\d*);?(\d*).` and `CUR_MOVE_REGEX = \x1b\[(\d*).`. -/

/-- `CUR_MOVE_REGEX.captures`, group 1, at the head of `s`. -/
def curMoveCaptureAt : List Char → Option (List Char)
  | '\x1b' :: '[' :: rest =>
    let run := rest.takeWhile (·.isDigit)
    match rest.dropWhile (·.isDigit) with
    | _ :: _ => some run
    | [] => none
  | _ => none

/-- `CUR_MOVE_REGEX.captures`: leftmost match. -/
def curMoveCapture : List Char → Option (List Char)
  | [] => none
  | c :: rest =>
    match curMoveCaptureAt (c :: rest) with
    | some r => some r
    | none => curMoveCapture rest

/-- `HOME_REGEX.captures`, groups 1 and 2, at the head of `s`. -/
def homeCaptureAt : List Char → Option (List Char × List Char)
  | '\x1b' :: '[' :: rest =>
    let g1 := rest.takeWhile (·.isDigit)
    let rest1 := rest.dropWhile (·.isDigit)
    let rest2 := match rest1 with
      | ';' :: r => r
      | r => r
    let g2 := rest2.takeWhile (·.isDigit)
    match rest2.dropWhile (·.isDigit) with
    | _ :: _ => some (g1, g2)
    | [] => none
  | _ => none

/-- `HOME_REGEX.captures`: leftmost match. -/
def homeCapture : List Char → Option (List Char × List Char)
  | [] => none
  | c :: rest =>
    match homeCaptureAt (c :: rest) with
    | some r => some r
    | none => homeCapture rest

/-- `Pane::cursor_move_amount`: the regex capture parsed as `u16`, with
`unwrap_or(1)` as the neutral default.  A failing `captures(..).unwrap()`
is an abort. -/
def cursorMoveAmount (code : List Char) : POut Nat :=
  match curMoveCapture code with
  | none => .panicked "captures unwrap"
  | some g => .ok ((parseU16 g).getD 1)

/-- `Pane::deletion_type`: `None` when the capture is empty, otherwise the
capture parsed as `u16` with a bare `unwrap` — an oversized parameter
aborts. -/
def deletionTypeParam (code : List Char) : POut (Option Nat) :=
  match curMoveCapture code with
  | none => .panicked "captures unwrap"
  | some g =>
    if g.isEmpty then .ok none
    else
      match parseU16 g with
      | some v => .ok (some v)
      | none => .panicked "parse u16 unwrap"

/-- `Pane::delete_text`: classify the erase code and dispatch it. -/
def deleteTextCmd (vp : ViewPort) (code : List Char) : POut ViewPort :=
  match code.getLast? with
  | none => .panicked "last unwrap"
  | some lc =>
    if lc = 'L' then .ok (vp.clear .ClearLineToCursor)
    else if lc = 'K' then
      (deletionTypeParam code).bind fun p =>
        .ok (vp.clear (match p with
          | none => .ClearLineAfterCursor
          | some 1 => .ClearLineToCursor
          | some 2 => .ClearLine
          | some _ => .Unknown code))
    else if lc = 'J' then
      (deletionTypeParam code).bind fun p =>
        .ok (vp.clear (match p with
          | none => .ClearScreenAfterCursor
          | some 1 => .ClearScreenToCursor
          | some 2 => .ClearScreen
          | some _ => .Unknown code))
    else
      .ok (vp.clear (if code.take 2 = ['\x1b', 'k']
        then .ClearLineAfterCursor
        else .Unknown code))

/-- `Pane::move_cursor`: dispatch on the final byte; `H`/`f` parse a
1-based row and column (each defaulting to 1 when absent or unparseable),
the arrow finals parse a single amount. -/
def moveCursorCmd (vp : ViewPort) (code : List Char) : POut ViewPort :=
  match code.getLast? with
  | none => .panicked "last unwrap"
  | some lc =>
    if lc = 'H' || lc = 'f' then
      match homeCapture code with
      | none => .panicked "captures unwrap"
      | some (g1, g2) =>
        let row : Int := (parseI32 g1).getD 1
        let col : Int := (parseI32 g2).getD 1
        .ok (vp.cursorGoto row col)
    else if lc = 'A' then (cursorMoveAmount code).bind fun n => .ok (vp.cursorUp n)
    else if lc = 'B' then (cursorMoveAmount code).bind fun n => .ok (vp.cursorDown n)
    else if lc = 'C' then (cursorMoveAmount code).bind fun n => .ok (vp.cursorRight n)
    else if lc = 'D' then (cursorMoveAmount code).bind fun n => .ok (vp.cursorLeft n)
    else .ok vp

/-- One plaintext character of `Pane::push`.  Backspace, newline, tab,
carriage return and delete are special-cased; a character whose low byte
(`c as u8`) is at least `0x20` is written at the cursor column in the
current style; remaining control characters are passed through to the
host without touching the viewport. -/
def ViewPort.handlePlainChar (vp : ViewPort) (c : Char) : ViewPort :=
  if c = '\x08' then vp.cursorLeft 1
  else if c = '\n' then vp.newline
  else if c = '\t' then
    (vp.withCurLine (fun line => line.pushStr "    ".data line.lastStyle)).cursorRight 4
  else if c = '\x0d' then vp.cursorHome
  else if c = '\x7f' then vp
  else if 0x20 ≤ c.toNat % 256 then
    let index := vp.cursor.x
    let style := vp.curStyle
    (vp.withCurLine (fun line => line.set index c style)).cursorRight 1
  else vp

/-- Token dispatch of `Pane::push`.  Pass-through kinds only print to the
host; the alternate-screen toggles clear the screen via `delete_text`
(whose `unwrap` cannot fail on `ESC [ 2 J`). -/
def dispatchToken (vp : ViewPort) (t : TerminalOutput) : POut ViewPort :=
  match t with
  | .Plaintext chars => .ok (chars.foldl ViewPort.handlePlainChar vp)
  | .CSI v =>
    match v with
    | .SGR code => vp.applyStyle code
    | .ScrollDown _ => .ok (vp.cursorUp 1)
    | .ScrollUp _ => .ok (vp.cursorDown 1)
    | .MoveCursor code => moveCursorCmd vp code
    | .MoveCursorApp code => moveCursorCmd vp code
    | .ClearLine code => deleteTextCmd vp code
    | .EraseLineBeforeCursor code => deleteTextCmd vp code
    | .EraseLineAfterCursor code => deleteTextCmd vp code
    | .EraseScreen code => deleteTextCmd vp code
    | .HideCursor _ => .ok vp
    | .ShowCursor _ => .ok vp
    | .GetCursorPos _ => .ok vp
    | .EnterApplicationKeyMode _ => .ok vp
    | .ExitAltKeypadMode _ => .ok vp
    | .PassThrough code =>
      if code = "\x1b[?1049h".data || code = "\x1b[?1049l".data then
        deleteTextCmd vp "\x1b[2J".data
      else .ok vp
    | .Unknown _ => .ok vp
    | .EnterAltKeypadMode _ => .ok vp

/-- `struct Pane`. -/
structure Pane where
  id : String
  x : Nat
  y : Nat
  viewPort : ViewPort
  streamState : StreamState
  deriving DecidableEq, Repr

/-- `Pane::new` (scroll mode starts Fixed). -/
def Pane.new (id : String) (x y height width : Nat) : Pane :=
  { id := id, x := x, y := y,
    viewPort := ViewPort.new id width height .Fixed,
    streamState := StreamState.new }

/-- `Pane::set_scroll_mode`. -/
def Pane.setScrollMode (p : Pane) (mode : ScrollMode) : Pane :=
  { p with viewPort := { p.viewPort with scrollMode := mode } }

/-- `Pane::push`: feed the chunk to the parser, then dispatch every
consumed token in order.  Logging calls are no-ops (the `log` crate
discards records when no logger is configured). -/
def Pane.push (p : Pane) (s : List Char) : POut Pane :=
  (p.streamState.pushStr s).bind fun ss =>
  ss.consume.bind fun co =>
  (co.1.foldl (fun (acc : POut ViewPort) t => acc.bind fun vp => dispatchToken vp t)
    (POut.ok p.viewPort)).bind
    fun vp => .ok { p with viewPort := vp, streamState := co.2 }

/-- `Pane::write`: walk the visible lines; every line whose `dirty()` is
set is emitted into the shared chunk buffer (a `Vec`, whose writes cannot
fail).  Returns the updated pane, the assembled chunk, and the indices of
the lines that were emitted. -/
def Pane.write (p : Pane) : Pane × String × List Nat :=
  let ps := p.viewPort.curStyle
  let xOff := p.x
  let yOff := p.y
  let width := p.viewPort.width
  let vp := p.viewPort.takeVisibleLines
  let res := vp.visibleLines.foldl
    (fun (acc : List GlyphString × String × List Nat × Nat) line =>
      if line.dirtyQ then
        let lw := line.write xOff (yOff + acc.2.2.2) width ps true
        match lw.2 with
        | .ok out => (acc.1 ++ [lw.1], acc.2.1 ++ out, acc.2.2.1 ++ [acc.2.2.2], acc.2.2.2 + 1)
        | .error _ => (acc.1 ++ [lw.1], acc.2.1, acc.2.2.1 ++ [acc.2.2.2], acc.2.2.2 + 1)
      else (acc.1 ++ [line], acc.2.1, acc.2.2.1, acc.2.2.2 + 1))
    ([], "", [], 0)
  ({ p with viewPort := { vp with visibleLines := res.1 } }, res.2.1, res.2.2.1)

/-- `Pane::plaintext` (the test helper): visible lines joined by newlines. -/
def Pane.plaintextLines (p : Pane) : List String :=
  (p.viewPort.takeVisibleLines).visibleLines.map GlyphString.plaintext


/-! ### Auxiliary definitions for the claim developments. -/

/-- Concatenated raw bytes of the vetted queue. -/
def vettedRaw (ss : StreamState) : List Char :=
  (ss.vettedOutput.map TerminalOutput.raw).flatten

/-- Reachability invariant of the parser: in the `Text` state the pending
buffer is empty. -/
def StreamState.wfP (ss : StreamState) : Prop :=
  ss.buildState = .PlainText → ss.buffer = []

/-- A run of the parser: push each chunk in order, calling `consume` after
every chunk, and collect the tokens in emission order; a classification
abort anywhere stops the run. -/
def runChunks (ss : StreamState) : List (List Char) → POut (List TerminalOutput × StreamState)
  | [] => .ok ([], ss)
  | chunk :: rest =>
    (ss.pushStr chunk).bind fun ss1 =>
    ss1.consume.bind fun co =>
    (runChunks co.2 rest).bind fun r =>
    .ok (co.1 ++ r.1, r.2)

/-- A two-glyph dirty line used to witness C10. -/
def c10Line : GlyphString :=
  { glyphs := [Glyph.new 'a' PrintStyle.default, Glyph.new 'b' PrintStyle.default],
    dirty := true }

/-- A red-foreground underlined style used to witness C3. -/
def c3StyleB : PrintStyle :=
  { foreground := .Red, background := .Black, italicized := false,
    underline := true, blink := false, bold := false, invert := false }


/-! ### Sanity checks replaying the repository unit tests. -/

example : PrintStyle.default.applyVt100 "\x1b[33m".data =
    .ok { PrintStyle.default with foreground := .Yellow } := by decide

example : PrintStyle.default.applyVt100 "\x1b[38;5;128m".data =
    .ok { PrintStyle.default with foreground := .TWOFIFTYSIX 128 } := by decide

example : PrintStyle.default.applyVt100 "\x1b[6m".data =
    .panicked "Invalid or unknown SGR code" := by decide

example : PrintStyle.default.toStr = "\x1b[37m\x1b[40m" := by decide
example : applySeqs PrintStyle.default PrintStyle.default.toStrParts = .ok PrintStyle.default := by
  decide

example : ((StreamState.new.pushStr "\x1b[33m".data).bind StreamState.consume).map
    (fun co => co.1) = .ok [.CSI (.SGR "\x1b[33m".data)] := by decide
example : ((StreamState.new.pushStr "hi\x1b".data).bind StreamState.consume).map
    (fun co => co.1) = .ok [.Plaintext "hi".data, .Plaintext "\x1b".data] := by decide
example : ((StreamState.new.pushStr "\x1bk".data).bind StreamState.consume).map
    (fun co => co.1) = .ok [.Plaintext "\x1bk".data] := by decide
example : ((StreamState.new.pushStr "\x1bM\x1bD".data).bind StreamState.consume).map
    (fun co => co.1)
    = .ok [.CSI (.ScrollDown "\x1bM".data), .CSI (.ScrollUp "\x1bD".data)] := by decide

example :
    (((GlyphString.new.pushStr "a line of text".data PrintStyle.default).write
      1 3 14 PrintStyle.default true).2) = .ok "\x1b[3;1Ha line of text" := by decide

example : (Pane.new "p1" 1 1 10 20).plaintextLines = [] := by decide
example :
    ((Pane.new "p1" 1 1 10 20).push "a line of text".data).map Pane.plaintextLines
      = .ok ["a line of text"] := by decide
example :
    (((Pane.new "p1" 1 1 5 10).push "\x1b[5;1H".data).bind
      (fun p => p.push "some text".data)).map Pane.plaintextLines
      = .ok ["", "", "", "", "some text"] := by decide

/-! ### Claim theorems. -/

/-- C1, counterexample.  The claim asserts that `Pane::push` handles an
SGR sequence with an unrecognised numeric code (`ESC[6m`) without a
panic; in fact `apply_vt100` reaches its wildcard arm, which panics. -/
theorem c1_counterexample :
    (((Pane.new "p1" 1 1 5 5).push "\x1b[6m".data)).isPanic = true := by decide

/-- C1, amended: pushing an SGR sequence with an unrecognised numeric code
(`ESC[6m`), an extended-colour SGR missing its required sub-parameters
(`ESC[38;5m`), or an erase sequence whose numeric parameter exceeds `u16`
(`ESC[99999K`) each abort `Pane::push` with a panic instead of being
replaced by neutral defaults; by contrast an oversized cursor-movement
parameter (`ESC[99999A`) does fall back to the neutral default 1 and push
succeeds. -/
theorem c1_amended_panics :
    (((Pane.new "p1" 1 1 5 5).push "\x1b[6m".data)).isPanic = true ∧
    (((Pane.new "p2" 1 1 5 5).push "\x1b[38;5m".data)).isPanic = true ∧
    (((Pane.new "p3" 1 1 5 5).push "\x1b[99999K".data)).isPanic = true ∧
    (((Pane.new "p4" 1 1 5 5).push "\x1b[99999A".data)).map
      (fun p => (p.viewPort.cursor.x, p.viewPort.cursor.y)) = .ok (0, 0) := by decide

/-- C2, code bug.  The spec says SGR code 49 resets the background to
black and leaves the foreground alone; the `49` arm of `apply_vt100`
instead assigns `foreground = Black` and leaves the background untouched.
Evaluated on a style whose background is red: the background stays red
and the foreground turns black. -/
theorem c2_code_evaluation :
    ({ PrintStyle.default with background := .Red }.applyVt100 "\x1b[49m".data
      = .ok { PrintStyle.default with foreground := .Black, background := .Red }) ∧
    (({ PrintStyle.default with background := .Red }.applyVt100 "\x1b[49m".data).map
      (fun (res : PrintStyle) =>
        (decide (res.background = Color.Black), decide (res.foreground = Color.White)))
      = .ok (false, false)) := by decide

/-- C4, counterexample.  The claim (and the spec's boundary scenario)
expects the 2×5 Scroll pane to show `BBBBB`/`CCCCC` with the cursor at
(0,1) after pushing `"AAAAA\nBBBBB\nCCCCC"`; the code disagrees. -/
theorem c4_counterexample :
    ((((Pane.new "p1" 1 1 2 5).setScrollMode .Scroll).push "AAAAA\nBBBBB\nCCCCC".data).map
      (fun p => (p.plaintextLines, p.viewPort.cursor.x, p.viewPort.cursor.y)))
      ≠ .ok (["BBBBB", "CCCCC"], 0, 1) := by decide

/-- C4, amended.  `cur_line` pops `cursor.y - height` lines — zero when
the clamped cursor sits exactly at `height` — and then clamps the cursor
to the last row, so the third line overwrites the second instead of
scrolling the first away: the visible lines are `AAAAA` and `CCCCC` and
the cursor ends at (5,1). -/
theorem c4_amended_scroll_result :
    ((((Pane.new "p1" 1 1 2 5).setScrollMode .Scroll).push "AAAAA\nBBBBB\nCCCCC".data).map
      (fun p => (p.plaintextLines, p.viewPort.cursor.x, p.viewPort.cursor.y)))
      = .ok (["AAAAA", "CCCCC"], 5, 1) := by decide

/-- C5, counterexample.  The claim expects `ESC[99;99H` on a 5×5 Fixed
pane to clamp the cursor to (4,4); the code clamps to (5,5) because
`Cursor::new` receives the full width and height as the clamp bounds. -/
theorem c5_counterexample :
    (((Pane.new "p1" 1 1 5 5).push "\x1b[99;99H".data).map
      (fun p => (p.viewPort.cursor.x, p.viewPort.cursor.y))) ≠ .ok (4, 4) := by decide

/-- C5, amended: the cursor is clamped to (5,5) — `x_max = width` and
`y_max = height`, not `width - 1`/`height - 1`. -/
theorem c5_amended_clamp :
    (((Pane.new "p1" 1 1 5 5).push "\x1b[99;99H".data).map
      (fun p => (p.viewPort.cursor.x, p.viewPort.cursor.y))) = .ok (5, 5) := by decide

/-- C7, counterexample.  The claim says a 2-character escape buffer ending
in `k` is kept and later classified as `ClearLine`; the parser's
`CSI_BEGINNING` class (`[`, `0x9b`, `>`, `=`, `M`, `D`) does not contain
`k`, so `ESC k` is flushed as `Plaintext` and never reaches the
classifier. -/
theorem c7_counterexample :
    ((StreamState.new.pushStr "\x1bk".data).bind StreamState.consume).map (fun co => co.1)
      = .ok [.Plaintext "\x1bk".data] := by decide

/-- C7, amended: the parser flushes the two-character buffer `ESC k` as
`Plaintext` (`k` is not a CSI introducer in `CSI_BEGINNING`), even though
`VT100::from_str` would classify a string starting `ESC k` as a
`ClearLine` token if it ever received one. -/
theorem c7_amended_esc_k :
    ((StreamState.new.pushStr "\x1bk".data).bind StreamState.consume).map (fun co => co.1)
      = .ok [.Plaintext "\x1bk".data] ∧
    vt100FromStr "\x1bk".data = .ok (.ClearLine "\x1bk".data) ∧
    vt100FromStr "\x1bksome title".data = .ok (.ClearLine "\x1bksome title".data) := by
  decide

/-- C3, counterexample.  For `a` the default style and `b` differing only
in the bold flag, `diff_str` emits nothing (it never compares the bold
flags), so applying `a.to_sgr()` then `a.diff(b)` to a default terminal
leaves bold off, while `b.to_sgr()` (which uses the 90s/100s colour bases
when bold) turns bold on. -/
theorem c3_counterexample :
    ((applySeqs PrintStyle.default PrintStyle.default.toStrParts).bind
      (fun t => applySeqs t
        (PrintStyle.default.diffParts { PrintStyle.default with bold := true })))
      ≠ applySeqs PrintStyle.default
          ({ PrintStyle.default with bold := true }).toStrParts := by decide

/-- C8, counterexample.  The claim says a tab writes four spaces carrying
the viewport's current style at the cursor column.  Push `ESC[33m` (so the
current style has a yellow foreground) and then a tab into a fresh pane:
the four spaces that appear carry the default style of the empty line's
trailing glyph, not the current yellow style. -/
theorem c8_counterexample :
    (((Pane.new "p1" 1 1 5 20).push "\x1b[33m\t".data).map
      (fun p => ((p.viewPort.visibleLines.headD GlyphString.new).glyphs.map
        (fun g => decide (g.style = p.viewPort.curStyle)))))
      ≠ .ok [true, true, true, true] := by decide

/-! ### C6: the stream parser and losslessness. -/

@[simp] theorem pout_bind_ok {α β : Type} (a : α) (f : α → POut β) :
    POut.bind (.ok a) f = f a := rfl

theorem pout_bind_err {α β : Type} (m : String) (f : α → POut β) :
    POut.bind (.err m) f = (.err m : POut β) := rfl

theorem pout_bind_panicked {α β : Type} (m : String) (f : α → POut β) :
    POut.bind (.panicked m) f = (.panicked m : POut β) := rfl

theorem vt100FromStrD_raw (s : List Char) : (vt100FromStrD s).raw = s := by
  unfold vt100FromStrD
  split <;> rfl

theorem vt100FromStrK_raw (s : List Char) : (vt100FromStrK s).raw = s := by
  unfold vt100FromStrK
  split_ifs <;> rfl

theorem vt100FromStrMode_raw (s : List Char) : (vt100FromStrMode s).raw = s := by
  unfold vt100FromStrMode
  split_ifs <;> rfl

theorem vt100FromStrMove_raw_ok (s : List Char) (v : VT100)
    (h : vt100FromStrMove s = .ok v) : v.raw = s := by
  unfold vt100FromStrMove at h
  split at h
  · exact absurd h (by simp)
  · split at h <;> (injection h with h2; subst h2; rfl)

theorem vt100FromStrOther_raw_ok (s : List Char) (v : VT100)
    (h : vt100FromStrOther s = .ok v) : v.raw = s := by
  unfold vt100FromStrOther at h
  split at h
  · exact absurd h (by simp)
  · split at h <;> (injection h with h2; subst h2; rfl)

theorem vt100FromStr_raw_ok (s : List Char) (v : VT100)
    (h : vt100FromStr s = .ok v) : v.raw = s := by
  unfold vt100FromStr at h
  split at h
  · exact absurd h (by simp)
  · split_ifs at h
    all_goals
      first
        | exact vt100FromStrMove_raw_ok s v h
        | exact vt100FromStrOther_raw_ok s v h
        | (injection h with h2; subst h2;
            first
              | rfl
              | exact vt100FromStrD_raw s
              | exact vt100FromStrK_raw s
              | exact vt100FromStrMode_raw s)

theorem consumeBuffer_spec (ss ss' : StreamState) (h : ss.consumeBuffer = .ok ss') :
    vettedRaw ss' = vettedRaw ss ++ ss.buffer ∧ ss'.buffer = [] ∧
      ss'.buildState = ss.buildState := by
  unfold StreamState.consumeBuffer at h
  split at h
  · split at h
    next v hv =>
      injection h with h2
      subst h2
      refine ⟨?_, rfl, rfl⟩
      simp [vettedRaw, TerminalOutput.raw, vt100FromStr_raw_ok _ _ hv]
    next m hm => exact absurd h (by simp)
    next m hm => exact absurd h (by simp)
  · injection h with h2
    subst h2
    refine ⟨?_, rfl, rfl⟩
    simp [vettedRaw, TerminalOutput.raw]

theorem pushChar_raw_wf (ss ss' : StreamState) (c : Char) (hwf : ss.wfP)
    (h : ss.pushChar c = .ok ss') :
    vettedRaw ss' ++ ss'.buffer = vettedRaw ss ++ ss.buffer ++ [c] ∧ ss'.wfP := by
  obtain ⟨buf, vet, st⟩ := ss
  cases st with
  | PlainText =>
    have hbuf : buf = [] := hwf rfl
    subst hbuf
    by_cases hc : c = '\x1b'
    · subst hc
      have hp : StreamState.pushChar ⟨[], vet, .PlainText⟩ '\x1b'
          = .ok ⟨['\x1b'], vet ++ [.Plaintext []], .FoundEsc⟩ := rfl
      rw [hp] at h
      injection h with h2
      subst h2
      refine ⟨?_, fun hx => by simp at hx⟩
      simp [vettedRaw, TerminalOutput.raw]
    · have hp : StreamState.pushChar ⟨[], vet, .PlainText⟩ c
          = .ok (match vet.getLast? with
            | none => ⟨[], [.Plaintext [c]], .PlainText⟩
            | some (.Plaintext p) =>
                ⟨[], vet.dropLast ++ [.Plaintext (p ++ [c])], .PlainText⟩
            | some (.CSI v) =>
                ⟨[], vet.dropLast ++ [.CSI v, .Plaintext [c]], .PlainText⟩) := by
        simp only [StreamState.pushChar, if_neg hc]
      rw [hp] at h
      injection h with h2
      subst h2
      cases hl : vet.getLast? with
      | none =>
        have hnil : vet = [] := List.getLast?_eq_none_iff.mp hl
        subst hnil
        exact ⟨by simp [vettedRaw, TerminalOutput.raw], fun _ => rfl⟩
      | some o =>
        have hne : vet ≠ [] := by
          intro hx; rw [hx] at hl; simp at hl
        have hsplit : vet.dropLast ++ [o] = vet := by
          have h1 := List.dropLast_append_getLast hne
          have h2 : vet.getLast hne = o := by
            have := List.getLast?_eq_getLast vet hne
            rw [hl] at this
            exact (Option.some_inj.mp this).symm
          rw [h2] at h1
          exact h1
        cases o with
        | Plaintext p =>
          refine ⟨?_, fun _ => rfl⟩
          simp only [hl]
          simp only [vettedRaw]
          conv_rhs => rw [← hsplit]
          simp [TerminalOutput.raw]
        | CSI v =>
          refine ⟨?_, fun _ => rfl⟩
          simp only [hl]
          simp only [vettedRaw]
          conv_rhs => rw [← hsplit]
          simp [TerminalOutput.raw]
  | FoundEsc =>
    have hred : StreamState.pushChar ⟨buf, vet, .FoundEsc⟩ c
        = (if (byteLen (buf ++ [c]) = 2 &&
              !(StreamState.isEscSeq ⟨buf ++ [c], vet, .FoundEsc⟩)) ||
            StreamState.isEscSeqComplete ⟨buf ++ [c], vet, .FoundEsc⟩ then
          (StreamState.consumeBuffer ⟨buf ++ [c], vet, .FoundEsc⟩).bind fun ss2 =>
            .ok { ss2 with buildState := .PlainText }
        else .ok ⟨buf ++ [c], vet, .FoundEsc⟩) := rfl
    rw [hred] at h
    split at h
    · cases hcb : StreamState.consumeBuffer ⟨buf ++ [c], vet, .FoundEsc⟩ with
      | ok s2 =>
        rw [hcb] at h
        simp only [pout_bind_ok] at h
        injection h with h2
        subst h2
        obtain ⟨hraw, hbuf2, _⟩ := consumeBuffer_spec _ _ hcb
        constructor
        · have e1 : vettedRaw { s2 with buildState := VT100State.PlainText }
              = vettedRaw s2 := rfl
          have e2 : ({ s2 with buildState := VT100State.PlainText } :
              StreamState).buffer = s2.buffer := rfl
          rw [e1, e2, hraw, hbuf2]
          simp [vettedRaw]
        · intro _
          exact hbuf2
      | err m =>
        rw [hcb] at h
        simp [POut.bind] at h
      | panicked m =>
        rw [hcb] at h
        simp [POut.bind] at h
    · injection h with h2
      subst h2
      refine ⟨by simp [vettedRaw], fun hx => by simp at hx⟩

theorem pushStr_foldl_err (m : String) (rest : List Char) :
    rest.foldl (fun (acc : POut StreamState) c => acc.bind fun st => st.pushChar c)
      (.err m) = .err m := by
  induction rest with
  | nil => rfl
  | cons c cs ih => simpa [List.foldl_cons, POut.bind] using ih

theorem pushStr_foldl_panicked (m : String) (rest : List Char) :
    rest.foldl (fun (acc : POut StreamState) c => acc.bind fun st => st.pushChar c)
      (.panicked m) = .panicked m := by
  induction rest with
  | nil => rfl
  | cons c cs ih => simpa [List.foldl_cons, POut.bind] using ih

theorem pushStr_cons (ss : StreamState) (c : Char) (rest : List Char) :
    ss.pushStr (c :: rest) = (ss.pushChar c).bind fun s1 => s1.pushStr rest := by
  cases hc : ss.pushChar c with
  | ok s1 =>
    simp [StreamState.pushStr, List.foldl_cons, POut.bind, hc]
  | err m =>
    simp only [StreamState.pushStr, List.foldl_cons, pout_bind_ok, hc]
    exact pushStr_foldl_err m rest
  | panicked m =>
    simp only [StreamState.pushStr, List.foldl_cons, pout_bind_ok, hc]
    exact pushStr_foldl_panicked m rest

theorem pushStr_raw_wf (s : List Char) (ss ssf : StreamState) (hwf : ss.wfP)
    (h : ss.pushStr s = .ok ssf) :
    vettedRaw ssf ++ ssf.buffer = vettedRaw ss ++ ss.buffer ++ s ∧ ssf.wfP := by
  induction s generalizing ss with
  | nil =>
    injection h with h2
    subst h2
    exact ⟨by simp, hwf⟩
  | cons c rest ih =>
    rw [pushStr_cons] at h
    cases hc : ss.pushChar c with
    | ok s1 =>
      rw [hc] at h
      simp only [pout_bind_ok] at h
      obtain ⟨h1, hwf1⟩ := pushChar_raw_wf ss s1 c hwf hc
      obtain ⟨h2, hwf2⟩ := ih s1 hwf1 h
      refine ⟨?_, hwf2⟩
      rw [h2, h1]
      simp
    | err m =>
      rw [hc] at h
      simp [POut.bind] at h
    | panicked m =>
      rw [hc] at h
      simp [POut.bind] at h

theorem raw_nil_of_empty (o : TerminalOutput) (h : o.isEmptyOut = true) : o.raw = [] := by
  cases o with
  | Plaintext p =>
    simp [TerminalOutput.isEmptyOut] at h
    simp [TerminalOutput.raw, h]
  | CSI v =>
    simp [TerminalOutput.isEmptyOut, List.isEmpty_iff] at h
    simp [TerminalOutput.raw, h]

theorem filter_raw_flatten (l : List TerminalOutput) :
    ((l.filter fun o => !o.isEmptyOut).map TerminalOutput.raw).flatten
      = (l.map TerminalOutput.raw).flatten := by
  induction l with
  | nil => rfl
  | cons o rest ih =>
    by_cases h : o.isEmptyOut = true
    · simp [List.filter_cons, h, ih, raw_nil_of_empty o h]
    · simp only [Bool.not_eq_true] at h
      simp [List.filter_cons, h, ih]

theorem consume_raw_wf (ss : StreamState) (out : List TerminalOutput)
    (ss' : StreamState) (hwf : ss.wfP) (h : ss.consume = .ok (out, ss')) :
    ((out.map TerminalOutput.raw).flatten ++ ss'.buffer
        = vettedRaw ss ++ ss.buffer) ∧
      ss'.vettedOutput = [] ∧ ss'.wfP := by
  unfold StreamState.consume at h
  split at h
  · cases hcb : ss.consumeBuffer with
    | ok s2 =>
      rw [hcb] at h
      simp only [pout_bind_ok] at h
      injection h with h2
      obtain ⟨ho, hs⟩ := (Prod.mk.injEq _ _ _ _).mp h2
      subst ho
      subst hs
      obtain ⟨hraw, hbuf2, _⟩ := consumeBuffer_spec _ _ hcb
      refine ⟨?_, rfl, fun _ => hbuf2⟩
      have e2 : vettedRaw s2 = ((s2.vettedOutput.map TerminalOutput.raw)).flatten := rfl
      rw [filter_raw_flatten, ← e2, hraw, hbuf2]
      simp
    | err m =>
      rw [hcb] at h
      simp [POut.bind] at h
    | panicked m =>
      rw [hcb] at h
      simp [POut.bind] at h
  · injection h with h2
    obtain ⟨ho, hs⟩ := (Prod.mk.injEq _ _ _ _).mp h2
    subst ho
    subst hs
    refine ⟨?_, rfl, fun hx => hwf (by simpa using hx)⟩
    rw [filter_raw_flatten]
    rfl

theorem consume_vetted_nil (ss : StreamState) (out : List TerminalOutput)
    (ss' : StreamState) (h : ss.consume = .ok (out, ss')) :
    ss'.vettedOutput = [] := by
  unfold StreamState.consume at h
  split at h
  · cases hcb : ss.consumeBuffer with
    | ok s2 =>
      rw [hcb] at h
      simp only [pout_bind_ok] at h
      injection h with h2
      obtain ⟨_, hs⟩ := (Prod.mk.injEq _ _ _ _).mp h2
      subst hs
      rfl
    | err m =>
      rw [hcb] at h
      simp [POut.bind] at h
    | panicked m =>
      rw [hcb] at h
      simp [POut.bind] at h
  · injection h with h2
    obtain ⟨_, hs⟩ := (Prod.mk.injEq _ _ _ _).mp h2
    subst hs
    rfl

theorem runChunks_raw_wf (chunks : List (List Char)) (ss : StreamState)
    (toks : List TerminalOutput) (ssf : StreamState) (hwf : ss.wfP)
    (h : runChunks ss chunks = .ok (toks, ssf)) :
    ((toks.map TerminalOutput.raw).flatten ++ vettedRaw ssf ++ ssf.buffer
      = vettedRaw ss ++ ss.buffer ++ chunks.flatten) ∧ ssf.wfP := by
  induction chunks generalizing ss toks ssf with
  | nil =>
    injection h with h2
    obtain ⟨ho, hs⟩ := (Prod.mk.injEq _ _ _ _).mp h2
    subst ho
    subst hs
    exact ⟨by simp, hwf⟩
  | cons chunk rest ih =>
    have hred : runChunks ss (chunk :: rest)
        = (ss.pushStr chunk).bind fun ss1 =>
          ss1.consume.bind fun co =>
          (runChunks co.2 rest).bind fun r =>
          .ok (co.1 ++ r.1, r.2) := rfl
    rw [hred] at h
    cases hp : ss.pushStr chunk with
    | ok ss1 =>
      rw [hp] at h
      simp only [pout_bind_ok] at h
      cases hc : ss1.consume with
      | ok co =>
        obtain ⟨co1, co2⟩ := co
        rw [hc] at h
        simp only [pout_bind_ok] at h
        cases hr : runChunks co2 rest with
        | ok r =>
          obtain ⟨r1, r2⟩ := r
          rw [hr] at h
          simp only [pout_bind_ok] at h
          injection h with h2
          obtain ⟨ho, hs⟩ := (Prod.mk.injEq _ _ _ _).mp h2
          subst ho
          subst hs
          obtain ⟨hp1, hpw⟩ := pushStr_raw_wf chunk ss ss1 hwf hp
          obtain ⟨hc1, _, hcw⟩ := consume_raw_wf ss1 co1 co2 hpw hc
          obtain ⟨hr1, hrw⟩ := ih co2 r1 r2 hcw hr
          refine ⟨?_, hrw⟩
          calc ((co1 ++ r1).map TerminalOutput.raw).flatten ++ vettedRaw r2 ++ r2.buffer
              = (co1.map TerminalOutput.raw).flatten
                ++ ((r1.map TerminalOutput.raw).flatten ++ vettedRaw r2 ++ r2.buffer) := by
                simp
            _ = (co1.map TerminalOutput.raw).flatten
                ++ (vettedRaw co2 ++ co2.buffer ++ rest.flatten) := by rw [hr1]
            _ = ((co1.map TerminalOutput.raw).flatten ++ co2.buffer) ++ rest.flatten := by
                have hv : vettedRaw co2 = [] := by
                  simp [vettedRaw, consume_vetted_nil ss1 co1 co2 hc]
                rw [hv]
                simp
            _ = (vettedRaw ss1 ++ ss1.buffer) ++ rest.flatten := by rw [hc1]
            _ = vettedRaw ss ++ ss.buffer ++ (chunk ++ rest.flatten) := by
                rw [hp1]
                simp
        | err m =>
          rw [hr] at h
          simp [POut.bind] at h
        | panicked m =>
          rw [hr] at h
          simp [POut.bind] at h
      | err m =>
        rw [hc] at h
        simp [POut.bind] at h
      | panicked m =>
        rw [hc] at h
        simp [POut.bind] at h
    | err m =>
      rw [hp] at h
      simp [POut.bind] at h
    | panicked m =>
      rw [hp] at h
      simp [POut.bind] at h

theorem runChunks_vetted_empty (chunks : List (List Char)) (ss : StreamState)
    (toks : List TerminalOutput) (ssf : StreamState) (h0 : ss.vettedOutput = [])
    (h : runChunks ss chunks = .ok (toks, ssf)) : ssf.vettedOutput = [] := by
  induction chunks generalizing ss toks ssf with
  | nil =>
    injection h with h2
    obtain ⟨_, hs⟩ := (Prod.mk.injEq _ _ _ _).mp h2
    subst hs
    exact h0
  | cons chunk rest ih =>
    have hred : runChunks ss (chunk :: rest)
        = (ss.pushStr chunk).bind fun ss1 =>
          ss1.consume.bind fun co =>
          (runChunks co.2 rest).bind fun r =>
          .ok (co.1 ++ r.1, r.2) := rfl
    rw [hred] at h
    cases hp : ss.pushStr chunk with
    | ok ss1 =>
      rw [hp] at h
      simp only [pout_bind_ok] at h
      cases hc : ss1.consume with
      | ok co =>
        obtain ⟨co1, co2⟩ := co
        rw [hc] at h
        simp only [pout_bind_ok] at h
        cases hr : runChunks co2 rest with
        | ok r =>
          obtain ⟨r1, r2⟩ := r
          rw [hr] at h
          simp only [pout_bind_ok] at h
          injection h with h2
          obtain ⟨_, hs⟩ := (Prod.mk.injEq _ _ _ _).mp h2
          subst hs
          exact ih co2 r1 r2 (consume_vetted_nil ss1 co1 co2 hc) hr
        | err m =>
          rw [hr] at h
          simp [POut.bind] at h
        | panicked m =>
          rw [hr] at h
          simp [POut.bind] at h
      | err m =>
        rw [hc] at h
        simp [POut.bind] at h
      | panicked m =>
        rw [hc] at h
        simp [POut.bind] at h
    | err m =>
      rw [hp] at h
      simp [POut.bind] at h
    | panicked m =>
      rw [hp] at h
      simp [POut.bind] at h

/-- C6, counterexample.  `ESC 0x9b H` is a complete control sequence by
the parser's own regexes (`0x9b` is a `CSI_BEGINNING` introducer and `H` a
final byte), yet pushing it aborts: `from_str`'s cursor-movement arm takes
the byte slice `s.get(1..2)`, whose end falls inside the two-byte UTF-8
encoding of `0x9b`, and unwraps the resulting `None`.  The program
therefore returns no token stream at all on this complete input, refuting
losslessness as stated. -/
theorem c6_counterexample :
    vt100Match "\x1b\x9bH".data = true ∧
    (StreamState.new.pushStr "\x1b\x9bH".data).isPanic = true ∧
    (runChunks StreamState.new ["\x1b\x9bH".data]).isPanic = true := by decide

/-- C6, amended.  Whenever the run of pushes and consumes completes
without aborting (the byte-slicing panics in `from_str` fire only for
completed sequences introduced by the two-byte `0x9b` whose final byte
selects the cursor-movement or wildcard arm) and no partial control
sequence remains pending, the concatenation of every emitted token's raw
bytes — `Plaintext` contents and control-sequence raw strings, in
emission order — is exactly the pushed input, however it was chunked. -/
theorem c6_parser_lossless (chunks : List (List Char))
    (toks : List TerminalOutput) (ssf : StreamState)
    (h : runChunks StreamState.new chunks = .ok (toks, ssf))
    (hpending : ssf.buffer = []) :
    (toks.map TerminalOutput.raw).flatten = chunks.flatten := by
  obtain ⟨h1, _⟩ := runChunks_raw_wf chunks StreamState.new toks ssf (fun _ => rfl) h
  have hv : vettedRaw ssf = [] := by
    simp [vettedRaw, runChunks_vetted_empty chunks StreamState.new toks ssf rfl h]
  rw [hv, hpending] at h1
  simpa [vettedRaw, StreamState.new] using h1

/-- Witness for C6: the SGR sequence `ESC[33m` split in the middle of the
escape sequence, preceded and followed by plain text. -/
theorem c6_parser_lossless_witness :
    (runChunks StreamState.new ["ab\x1b[3".data, "3mc".data]
        = .ok ([.Plaintext "ab".data, .CSI (.SGR "\x1b[33m".data), .Plaintext ['c']],
               ⟨[], [], .PlainText⟩) ∧
      (⟨[], [], .PlainText⟩ : StreamState).buffer = []) ∧
    (([.Plaintext "ab".data, .CSI (.SGR "\x1b[33m".data),
        .Plaintext ['c']].map TerminalOutput.raw).flatten
      = (["ab\x1b[3".data, "3mc".data] : List (List Char)).flatten) :=
  ⟨⟨by decide, by decide⟩,
   c6_parser_lossless ["ab\x1b[3".data, "3mc".data]
     [.Plaintext "ab".data, .CSI (.SGR "\x1b[33m".data), .Plaintext ['c']]
     ⟨[], [], .PlainText⟩ (by decide) (by decide)⟩

/-! ### GlyphString lemmas used by C8–C10. -/

theorem list_set_append_singleton {α : Type} (l : List α) (a b : α) :
    (l ++ [a]).set l.length b = l ++ [b] := by
  induction l with
  | nil => rfl
  | cons x xs ih => simp [List.set, ih]

theorem glyphString_set_len (g : GlyphString) (c : Char) (st : PrintStyle) :
    g.set g.glyphs.length c st
      = { glyphs := g.glyphs ++ [Glyph.new c st], dirty := true } := by
  unfold GlyphString.set
  simp only [Nat.add_sub_cancel_left, List.replicate_one]
  rw [list_set_append_singleton]

theorem glyphString_pushStr_cons (g : GlyphString) (c : Char) (rest : List Char)
    (st : PrintStyle) :
    g.pushStr (c :: rest) st = (g.set g.glyphs.length c st).pushStr rest st := by
  unfold GlyphString.pushStr
  have hlen : (g.set g.glyphs.length c st).glyphs.length = g.glyphs.length + 1 := by
    rw [glyphString_set_len]; simp
  simp only [List.foldl_cons]
  rw [hlen]

theorem glyphString_pushStr_spec (s : List Char) (g : GlyphString) (st : PrintStyle) :
    g.pushStr s st
      = if s.isEmpty then g
        else { glyphs := g.glyphs ++ s.map (fun c => Glyph.new c st), dirty := true } := by
  induction s generalizing g with
  | nil => rfl
  | cons c rest ih =>
    rw [glyphString_pushStr_cons, ih, glyphString_set_len]
    cases rest with
    | nil => simp
    | cons d ds => simp

theorem ensureLines_length (vp : ViewPort) (i : Nat) :
    (vp.ensureLines i).visibleLines.length
      = max (i + 1) vp.visibleLines.length := by
  unfold ViewPort.ensureLines
  simp
  omega

theorem ensureLines_idx_lt (vp : ViewPort) (i : Nat) :
    i < (vp.ensureLines i).visibleLines.length := by
  rw [ensureLines_length]
  omega

theorem curLinePrep_cursor_x (vp : ViewPort) :
    vp.curLinePrep.cursor.x = vp.cursor.x := by
  unfold ViewPort.curLinePrep
  split <;> simp [Cursor.setY]

theorem curLinePrep_cursor_xMax (vp : ViewPort) :
    vp.curLinePrep.cursor.xMax = vp.cursor.xMax := by
  unfold ViewPort.curLinePrep
  split <;> simp [Cursor.setY]

theorem curLinePrep_curStyle (vp : ViewPort) :
    vp.curLinePrep.curStyle = vp.curStyle := by
  unfold ViewPort.curLinePrep
  split <;> simp

theorem ensureLines_cursor (vp : ViewPort) (i : Nat) :
    (vp.ensureLines i).cursor = vp.cursor := rfl

theorem ensureLines_curStyle (vp : ViewPort) (i : Nat) :
    (vp.ensureLines i).curStyle = vp.curStyle := rfl

theorem withCurLine_eq (vp : ViewPort) (f : GlyphString → GlyphString) :
    vp.withCurLine f
      = { vp.curLinePrep.ensureLines vp.curLinePrep.cursor.y with
          visibleLines :=
            (vp.curLinePrep.ensureLines vp.curLinePrep.cursor.y).visibleLines.set
              vp.curLinePrep.cursor.y
              (f ((vp.curLinePrep.ensureLines vp.curLinePrep.cursor.y).visibleLines.getD
                vp.curLinePrep.cursor.y GlyphString.new)) } := rfl

theorem list_getD_set_self {α : Type} (l : List α) (i : Nat) (x d : α)
    (h : i < l.length) : (l.set i x).getD i d = x := by
  induction l generalizing i with
  | nil => simp at h
  | cons a as ih =>
    cases i with
    | zero => rfl
    | succ j =>
      have hj : j < as.length := by simpa using h
      simpa [List.set, List.getD] using ih j hj

/-- C8, amended.  A horizontal tab appends four space glyphs to the end of
the current line, in the style of that line's trailing glyph (the default
style when the line is empty) — not at the cursor column and not in the
viewport's current style — and then moves the cursor right by 4 (clamped
at `x_max`); the current style itself is untouched. -/
theorem c8_amended_tab (vp : ViewPort) :
    ((vp.handlePlainChar '\t').visibleLines.getD vp.curLinePrep.cursor.y
        GlyphString.new).plaintext
      = ((vp.curLinePrep.ensureLines vp.curLinePrep.cursor.y).visibleLines.getD
          vp.curLinePrep.cursor.y GlyphString.new).plaintext ++ "    " ∧
    (((vp.handlePlainChar '\t').visibleLines.getD vp.curLinePrep.cursor.y
        GlyphString.new).glyphs.drop
        ((vp.curLinePrep.ensureLines vp.curLinePrep.cursor.y).visibleLines.getD
          vp.curLinePrep.cursor.y GlyphString.new).glyphs.length).map (·.style)
      = List.replicate 4
          ((vp.curLinePrep.ensureLines vp.curLinePrep.cursor.y).visibleLines.getD
            vp.curLinePrep.cursor.y GlyphString.new).lastStyle ∧
    (vp.handlePlainChar '\t').cursor.x = min (vp.cursor.x + 4) vp.cursor.xMax ∧
    (vp.handlePlainChar '\t').curStyle = vp.curStyle ∧
    (vp.handlePlainChar '\t').visibleLines.length
      = (vp.curLinePrep.ensureLines vp.curLinePrep.cursor.y).visibleLines.length := by
  have hred : vp.handlePlainChar '\t'
      = (vp.withCurLine (fun line => line.pushStr "    ".data line.lastStyle)).cursorRight 4 :=
    rfl
  set old := (vp.curLinePrep.ensureLines vp.curLinePrep.cursor.y).visibleLines.getD
    vp.curLinePrep.cursor.y GlyphString.new with hold
  have hlt := ensureLines_idx_lt vp.curLinePrep vp.curLinePrep.cursor.y
  have hlines : (vp.handlePlainChar '\t').visibleLines
      = (vp.curLinePrep.ensureLines vp.curLinePrep.cursor.y).visibleLines.set
          vp.curLinePrep.cursor.y (old.pushStr "    ".data old.lastStyle) := by
    rw [hred, withCurLine_eq]
    rfl
  have hget : (vp.handlePlainChar '\t').visibleLines.getD vp.curLinePrep.cursor.y
      GlyphString.new = old.pushStr "    ".data old.lastStyle := by
    rw [hlines]
    exact list_getD_set_self _ _ _ _ hlt
  have hpush : old.pushStr "    ".data old.lastStyle
      = { glyphs := old.glyphs ++ "    ".data.map (fun c => Glyph.new c old.lastStyle),
          dirty := true } := by
    rw [glyphString_pushStr_spec]
    rfl
  refine ⟨?_, ?_, ?_, ?_, ?_⟩
  · rw [hget, hpush]
    show String.mk _ = _
    simp [GlyphString.plaintext]
    rfl
  · rw [hget, hpush]
    simp only []
    rw [List.drop_left]
    rfl
  · have hc : (vp.handlePlainChar '\t').cursor
        = (vp.curLinePrep.ensureLines vp.curLinePrep.cursor.y).cursor.incrX 4 := by
      rw [hred, withCurLine_eq]; rfl
    rw [hc, ensureLines_cursor]
    simp [Cursor.incrX, Cursor.setX, curLinePrep_cursor_x, curLinePrep_cursor_xMax]
  · have hs : (vp.handlePlainChar '\t').curStyle
        = (vp.curLinePrep.ensureLines vp.curLinePrep.cursor.y).curStyle := by
      rw [hred, withCurLine_eq]; rfl
    rw [hs, ensureLines_curStyle, curLinePrep_curStyle]
  · rw [hlines]
    simp

theorem take_clean_glyphs (g : GlyphString) (width : Nat) :
    ((((g.glyphs.take width).map (fun gl => ({ gl with dirty := false } : Glyph)))
        ++ g.glyphs.drop width).take width).all (fun gl => !gl.dirty) = true := by
  rw [List.take_append_eq_append_take]
  rw [List.all_append]
  have h1 : ((((g.glyphs.take width).map (fun gl => ({ gl with dirty := false } : Glyph))).take
      width).all (fun gl => !gl.dirty)) = true := by
    apply List.all_eq_true.mpr
    intro gl hgl
    have := List.mem_of_mem_take hgl
    obtain ⟨gl0, _, hgl0⟩ := List.mem_map.mp this
    simp [← hgl0]
  rw [h1, Bool.true_and]
  by_cases hw : g.glyphs.length ≤ width
  · have : g.glyphs.drop width = [] := List.drop_eq_nil_of_le hw
    simp [this]
  · have hmin : width - width ⊓ g.glyphs.length = 0 := by omega
    simp [hmin]

/-- C9, amended.  When the host writer fails, `GlyphString::write`
propagates the error and leaves the line-level dirty flag untouched — but
the per-glyph dirty flags of the first `width` glyphs have already been
cleared by `str_with_width`, which runs while the output is being
formatted, before the write is attempted.  Glyphs beyond `width` are
untouched. -/
theorem c9_amended_write_failure (g : GlyphString) (xOff yOff width : Nat)
    (st : PrintStyle) :
    (g.write xOff yOff width st false).2 = .error "write failure" ∧
    (g.write xOff yOff width st false).1.dirty = g.dirty ∧
    (g.write xOff yOff width st false).1.glyphs
      = (g.glyphs.take width).map (fun gl => ({ gl with dirty := false } : Glyph))
        ++ g.glyphs.drop width ∧
    ((g.write xOff yOff width st false).1.glyphs.take width).all
      (fun gl => !gl.dirty) = true := by
  refine ⟨rfl, rfl, rfl, ?_⟩
  have h : (g.write xOff yOff width st false).1.glyphs
      = (g.glyphs.take width).map (fun gl => ({ gl with dirty := false } : Glyph))
        ++ g.glyphs.drop width := rfl
  rw [h]
  exact take_clean_glyphs g width

/-- C9, counterexample.  A line holding one dirty glyph, emitted through a
failing writer: the error is propagated, yet the glyph's dirty flag has
been cleared — contradicting the claim that no glyph dirty flag of the
line is cleared on a failed write. -/
theorem c9_counterexample :
    (({ glyphs := [Glyph.new 'a' PrintStyle.default], dirty := true } : GlyphString).glyphs.all
      (fun gl => gl.dirty) = true) ∧
    ((({ glyphs := [Glyph.new 'a' PrintStyle.default], dirty := true } : GlyphString).write
        1 1 1 PrintStyle.default false).2 = .error "write failure") ∧
    ((({ glyphs := [Glyph.new 'a' PrintStyle.default], dirty := true } : GlyphString).write
        1 1 1 PrintStyle.default false).1.glyphs.all (fun gl => gl.dirty) = false) := by
  decide

theorem write_true_ok (g : GlyphString) (x y w : Nat) (st : PrintStyle) :
    ∃ out, (g.write x y w st true).2 = Except.ok out :=
  ⟨_, rfl⟩

theorem any_of_all_ne_nil {α : Type} (l : List α) (p : α → Bool)
    (hne : l ≠ []) (h : l.all p = true) : l.any p = true := by
  cases l with
  | nil => exact absurd rfl hne
  | cons a as =>
    simp [List.all_cons] at h
    simp [List.any_cons, h.1]

/-- C10, confirmed.  After a successful `GlyphString::write` of the first
`width` glyphs of a longer line (whose tail glyphs are dirty, as they are
in every state the pane can reach, since `Pane::write` always passes the
same width), the line-level flag and the first `width` glyph flags are
cleared, the tail keeps its dirty glyphs, so `dirty()` still holds and
every subsequent `Pane::write` re-emits the line even with no intervening
push. -/
theorem c10_partial_emit_dirty (g : GlyphString) (xOff yOff width : Nat)
    (st : PrintStyle) (hw : width < g.glyphs.length)
    (hd : (g.glyphs.drop width).all (·.dirty) = true) :
    (∃ out, (g.write xOff yOff width st true).2 = .ok out) ∧
    (g.write xOff yOff width st true).1.dirty = false ∧
    ((g.write xOff yOff width st true).1.glyphs.take width).all
      (fun gl => !gl.dirty) = true ∧
    (g.write xOff yOff width st true).1.glyphs.drop width = g.glyphs.drop width ∧
    (g.write xOff yOff width st true).1.dirtyQ = true ∧
    (∀ p : Pane, p.viewPort.visibleLines = [(g.write xOff yOff width st true).1] →
      1 ≤ p.viewPort.height → (Pane.write p).2.2 = [0]) := by
  have hglyphs : (g.write xOff yOff width st true).1.glyphs
      = (g.glyphs.take width).map (fun gl => ({ gl with dirty := false } : Glyph))
        ++ g.glyphs.drop width := rfl
  have hdrop : (g.write xOff yOff width st true).1.glyphs.drop width
      = g.glyphs.drop width := by
    rw [hglyphs, List.drop_append_eq_append_drop]
    have hlen : ((g.glyphs.take width).map
        (fun gl => ({ gl with dirty := false } : Glyph))).length = width := by
      simp
      omega
    rw [hlen]
    simp
  have hne : g.glyphs.drop width ≠ [] := by
    intro hnil
    have := List.drop_eq_nil_iff.mp hnil
    omega
  have hdq : (g.write xOff yOff width st true).1.dirtyQ = true := by
    unfold GlyphString.dirtyQ
    have hany : ((g.write xOff yOff width st true).1.glyphs.drop width).any
        (·.dirty) = true := by
      rw [hdrop]
      exact any_of_all_ne_nil _ _ hne hd
    have : (g.write xOff yOff width st true).1.glyphs.any (·.dirty) = true := by
      rcases List.any_eq_true.mp hany with ⟨gl, hmem, hgl⟩
      exact List.any_eq_true.mpr ⟨gl, List.mem_of_mem_drop hmem, hgl⟩
    simp [this]
  refine ⟨write_true_ok g xOff yOff width st, rfl, ?_, hdrop, hdq, ?_⟩
  · rw [hglyphs]
    exact take_clean_glyphs g width
  · intro p hp hh
    have hts : p.viewPort.takeVisibleLines.visibleLines
        = [(g.write xOff yOff width st true).1] := by
      unfold ViewPort.takeVisibleLines
      cases hm : p.viewPort.scrollMode with
      | Scroll =>
        simp only [hp]
        have : ([(g.write xOff yOff width st true).1] : List GlyphString).length
            - p.viewPort.height = 0 := by simp; omega
        rw [this]
        rfl
      | Fixed =>
        simp only [hp]
        apply List.take_of_length_le
        simpa using hh
    obtain ⟨out, hok⟩ :=
      write_true_ok (g.write xOff yOff width st true).1 p.x (p.y + 0)
        p.viewPort.width p.viewPort.curStyle
    show ((p.viewPort.takeVisibleLines.visibleLines.foldl _ ([], "", [], 0)).2.2.1) = [0]
    rw [hts]
    simp only [List.foldl_cons, List.foldl_nil, hdq, if_pos]
    rw [hok]
    rfl

/-- Witness for C10 at a two-glyph dirty line written with width 1. -/
theorem c10_partial_emit_dirty_witness :
    (1 < c10Line.glyphs.length ∧ (c10Line.glyphs.drop 1).all (·.dirty) = true) ∧
    ((∃ out, (c10Line.write 1 1 1 PrintStyle.default true).2 = .ok out) ∧
     (c10Line.write 1 1 1 PrintStyle.default true).1.dirty = false ∧
     ((c10Line.write 1 1 1 PrintStyle.default true).1.glyphs.take 1).all
       (fun gl => !gl.dirty) = true ∧
     (c10Line.write 1 1 1 PrintStyle.default true).1.glyphs.drop 1
       = c10Line.glyphs.drop 1 ∧
     (c10Line.write 1 1 1 PrintStyle.default true).1.dirtyQ = true ∧
     (∀ p : Pane, p.viewPort.visibleLines = [(c10Line.write 1 1 1 PrintStyle.default true).1] →
        1 ≤ p.viewPort.height → (Pane.write p).2.2 = [0])) :=
  ⟨⟨by decide, by decide⟩,
   c10_partial_emit_dirty c10Line 1 1 1 PrintStyle.default (by decide) (by decide)⟩

/-! ### C3: the style-diff contract. -/

theorem applySeqs_cons_ok (t u : PrintStyle) (s : String) (rest : List String)
    (h : t.applyVt100 s.data = .ok u) : applySeqs t (s :: rest) = applySeqs u rest := by
  simp [applySeqs, h]

theorem applySeqs_single (t u : PrintStyle) (s : String)
    (h : t.applyVt100 s.data = .ok u) : applySeqs t [s] = .ok u := by
  simp [applySeqs, h]

theorem applySeqs_cons_err (t : PrintStyle) (m : String) (s : String) (rest : List String)
    (h : t.applyVt100 s.data = .err m) : applySeqs t (s :: rest) = .err m := by
  simp [applySeqs, h]

theorem applySeqs_cons_panicked (t : PrintStyle) (m : String) (s : String)
    (rest : List String) (h : t.applyVt100 s.data = .panicked m) :
    applySeqs t (s :: rest) = .panicked m := by
  simp [applySeqs, h]

theorem applySeqs_append (t : PrintStyle) (l1 l2 : List String) :
    applySeqs t (l1 ++ l2) = (applySeqs t l1).bind (fun u => applySeqs u l2) := by
  induction l1 generalizing t with
  | nil => rfl
  | cons s rest ih =>
    rw [List.cons_append]
    cases h : t.applyVt100 s.data with
    | ok u =>
      rw [applySeqs_cons_ok _ _ _ _ h, applySeqs_cons_ok _ _ _ _ h, ih]
    | err m =>
      rw [applySeqs_cons_err _ _ _ _ h, applySeqs_cons_err _ _ _ _ h]
      rfl
    | panicked m =>
      rw [applySeqs_cons_panicked _ _ _ _ h, applySeqs_cons_panicked _ _ _ _ h]
      rfl

/-- For a basic colour, `foreground_string` is the single SGR sequence
built from the bold-dependent base plus the colour offset. -/
theorem foregroundString_basic (b : PrintStyle) (h : b.foreground.isBasic = true) :
    b.foregroundString
      = "\x1b[" ++ toString ((if b.bold then (90 : Nat) else 30) + b.foreground.toOffset)
        ++ "m" := by
  obtain ⟨bfg, bbg, bit, bun, bbl, bbo, biv⟩ := b
  cases bfg <;> simp_all [PrintStyle.foregroundString, Color.isBasic]

/-- For a basic colour, `background_string` is the single SGR sequence
built from the bold-dependent base plus the colour offset. -/
theorem backgroundString_basic (b : PrintStyle) (h : b.background.isBasic = true) :
    b.backgroundString
      = "\x1b[" ++ toString ((if b.bold then (100 : Nat) else 40) + b.background.toOffset)
        ++ "m" := by
  obtain ⟨bfg, bbg, bit, bun, bbl, bbo, biv⟩ := b
  cases bbg <;> simp_all [PrintStyle.backgroundString, Color.isBasic]

theorem applyVt100_fgCode (t : PrintStyle) (c : Color) (bo : Bool)
    (h : c.isBasic = true) :
    t.applyVt100 ("\x1b[" ++ toString ((if bo then (90 : Nat) else 30) + c.toOffset)
        ++ "m").data
      = .ok { t with foreground := c, bold := if bo then true else t.bold } := by
  cases c <;> cases bo <;>
    first
      | rfl
      | simp [Color.isBasic] at h

theorem applyVt100_bgCode (t : PrintStyle) (c : Color) (bo : Bool)
    (h : c.isBasic = true) :
    t.applyVt100 ("\x1b[" ++ toString ((if bo then (100 : Nat) else 40) + c.toOffset)
        ++ "m").data
      = .ok { t with background := c, bold := if bo then true else t.bold } := by
  cases c <;> cases bo <;>
    first
      | rfl
      | simp [Color.isBasic] at h

/-- Applying the emitted foreground selector of a basic-coloured style `b`
to any terminal style `t` sets the foreground to `b`'s and turns bold on
when `b` is bold (the 90s base), leaving bold alone otherwise. -/
theorem applyVt100_fgString (t b : PrintStyle) (h : b.foreground.isBasic = true) :
    t.applyVt100 b.foregroundString.data
      = .ok { t with foreground := b.foreground,
                     bold := if b.bold then true else t.bold } := by
  rw [foregroundString_basic b h]
  exact applyVt100_fgCode t b.foreground b.bold h

/-- Counterpart of `applyVt100_fgString` for the background selector
(the 40s, or the bold 100s, base). -/
theorem applyVt100_bgString (t b : PrintStyle) (h : b.background.isBasic = true) :
    t.applyVt100 b.backgroundString.data
      = .ok { t with background := b.background,
                     bold := if b.bold then true else t.bold } := by
  rw [backgroundString_basic b h]
  exact applyVt100_bgCode t b.background b.bold h

/-- Applying `to_str` of a basic-coloured style to a default terminal
reproduces the style, except that the invert flag is never transmitted. -/
theorem applySeqs_toStrParts (a : PrintStyle) (h1 : a.foreground.isBasic = true)
    (h2 : a.background.isBasic = true) :
    applySeqs PrintStyle.default a.toStrParts
      = .ok ⟨a.foreground, a.background, a.italicized, a.underline, a.blink, a.bold,
             false⟩ := by
  have hsh : a.toStrParts
      = a.foregroundString :: a.backgroundString ::
        ((if a.blink then ["\x1b[5m"] else []) ++
         (if a.underline then ["\x1b[4m"] else []) ++
         (if a.italicized then ["\x1b[3m"] else [])) := rfl
  rw [hsh]
  rw [applySeqs_cons_ok _ _ _ _ (applyVt100_fgString PrintStyle.default a h1)]
  rw [applySeqs_cons_ok _ _ _ _ (applyVt100_bgString _ a h2)]
  cases habo : a.bold <;> cases habl : a.blink <;> cases haun : a.underline <;>
    cases hait : a.italicized <;> rfl

theorem applySeqs_fgSeg (t a b : PrintStyle) (h : b.foreground.isBasic = true) :
    applySeqs t (if a.foreground ≠ b.foreground then [b.foregroundString] else [])
      = .ok (if a.foreground = b.foreground then t
             else { t with foreground := b.foreground,
                           bold := if b.bold then true else t.bold }) := by
  by_cases hfg : a.foreground = b.foreground
  · simp [hfg, applySeqs]
  · simp only [ne_eq, hfg, not_false_eq_true, if_true, if_neg hfg]
    exact applySeqs_single _ _ _ (applyVt100_fgString t b h)

theorem applySeqs_bgSeg (t a b : PrintStyle) (h : b.background.isBasic = true) :
    applySeqs t (if a.background ≠ b.background then [b.backgroundString] else [])
      = .ok (if a.background = b.background then t
             else { t with background := b.background,
                           bold := if b.bold then true else t.bold }) := by
  by_cases hbg : a.background = b.background
  · simp [hbg, applySeqs]
  · simp only [ne_eq, hbg, not_false_eq_true, if_true, if_neg hbg]
    exact applySeqs_single _ _ _ (applyVt100_bgString t b h)

theorem applySeqs_undSeg (t : PrintStyle) (x y : Bool) :
    applySeqs t (if x ≠ y then [if y then "\x1b[4m" else "\x1b[24m"] else [])
      = .ok { t with underline := if x = y then t.underline else y } := by
  cases x <;> cases y <;> rfl

theorem applySeqs_blinkSeg (t : PrintStyle) (x y : Bool) :
    applySeqs t (if x ≠ y then [if y then "\x1b[5m" else "\x1b[25m"] else [])
      = .ok { t with blink := if x = y then t.blink else y } := by
  cases x <;> cases y <;> rfl

theorem applySeqs_italSeg (t : PrintStyle) (x y : Bool) :
    applySeqs t (if x ≠ y then [if y then "\x1b[3m" else "\x1b[23m"] else [])
      = .ok { t with italicized := if x = y then t.italicized else y } := by
  cases x <;> cases y <;> rfl

theorem applySeqs_invSeg (t : PrintStyle) (x y : Bool) :
    applySeqs t (if x ≠ y then [if y then "\x1b[7m" else "\x1b[27m"] else [])
      = .ok { t with invert := if x = y then t.invert else y } := by
  cases x <;> cases y <;> rfl

theorem ite_self_eq {α : Type} [DecidableEq α] (x y : α) :
    (if x = y then x else y) = y := by
  by_cases h : x = y <;> simp [h]

/-- C3, amended.  The diff contract — applying `a.to_sgr()` then
`a.diff(b)` to a default terminal matches applying `b.to_sgr()` — holds
provided `a` and `b` agree on the bold and invert flags and all four
colours are among the eight basic colours; the counterexample shows it
fails when only the bold flags differ (`diff_str` never compares bold, yet
both emitted colour selectors encode bold in their 90/100 bases, and
`to_str` never transmits invert). -/
theorem c3_amended_diff_contract (a b : PrintStyle)
    (hbold : a.bold = b.bold) (hinv : a.invert = b.invert)
    (h1 : a.foreground.isBasic = true) (h2 : a.background.isBasic = true)
    (h3 : b.foreground.isBasic = true) (h4 : b.background.isBasic = true) :
    (applySeqs PrintStyle.default a.toStrParts).bind
      (fun t => applySeqs t (a.diffParts b))
      = applySeqs PrintStyle.default b.toStrParts := by
  rw [applySeqs_toStrParts a h1 h2, applySeqs_toStrParts b h3 h4, pout_bind_ok]
  have hd : a.diffParts b
      = (if a.foreground ≠ b.foreground then [b.foregroundString] else [])
        ++ ((if a.background ≠ b.background then [b.backgroundString] else [])
        ++ ((if a.underline ≠ b.underline
              then [if b.underline then "\x1b[4m" else "\x1b[24m"] else [])
        ++ ((if a.blink ≠ b.blink
              then [if b.blink then "\x1b[5m" else "\x1b[25m"] else [])
        ++ ((if a.italicized ≠ b.italicized
              then [if b.italicized then "\x1b[3m" else "\x1b[23m"] else [])
        ++ (if a.invert ≠ b.invert
              then [if b.invert then "\x1b[7m" else "\x1b[27m"] else []))))) := by
    simp [PrintStyle.diffParts, List.append_assoc]
  rw [hd]
  rw [applySeqs_append, applySeqs_fgSeg _ a b h3, pout_bind_ok]
  rw [applySeqs_append, applySeqs_bgSeg _ a b h4, pout_bind_ok]
  rw [applySeqs_append, applySeqs_undSeg, pout_bind_ok]
  rw [applySeqs_append, applySeqs_blinkSeg, pout_bind_ok]
  rw [applySeqs_append, applySeqs_italSeg, pout_bind_ok]
  rw [applySeqs_invSeg]
  congr 1
  simp only [hbold, hinv]
  split_ifs <;> simp_all [ite_self_eq]

/-- Witness for C3 at `a` = default and `b` = red underlined. -/
theorem c3_amended_diff_contract_witness :
    (PrintStyle.default.bold = c3StyleB.bold ∧
     PrintStyle.default.invert = c3StyleB.invert ∧
     PrintStyle.default.foreground.isBasic = true ∧
     PrintStyle.default.background.isBasic = true ∧
     c3StyleB.foreground.isBasic = true ∧
     c3StyleB.background.isBasic = true) ∧
    (applySeqs PrintStyle.default PrintStyle.default.toStrParts).bind
      (fun t => applySeqs t (PrintStyle.default.diffParts c3StyleB))
      = applySeqs PrintStyle.default c3StyleB.toStrParts :=
  ⟨⟨by decide, by decide, by decide, by decide, by decide, by decide⟩,
   c3_amended_diff_contract PrintStyle.default c3StyleB (by decide) (by decide)
     (by decide) (by decide) (by decide) (by decide)⟩
